import Mathlib

/-!
# osrs-price-api: tiered price history (raw → hourly → daily)

A shallow embedding of `internal/database/repository.go`, `internal/models`,
`internal/worker/cleanup.go` and the time, formatting and scanning functions they use,
followed by theorems about tier selection, range queries, the two rollup passes,
retention, the change and ranking queries, ingest and size formatting.

Conventions of the embedding

* A `time.Time` is an `Int`: nanoseconds since the Unix epoch, UTC.  A `time.Duration`
  is an `Int` number of nanoseconds in the int64 range.
* A table is the `List` of its rows, in the order of the surrogate key `id` (drawn from
  a sequence, hence always fresh).  `id` and `created_at` are assigned by the store; rows
  carry the remaining columns.
* `int`, `int64` and `bigint` values are `Int`.  The `int64` operations of the Go code (the
  subtractions of `GetPriceChange`, the negation in `now.Add(-duration)`, the
  multiplication in `formatBytes`) wrap around (`int64Wrap`); the sums and differences
  formed inside SQL statements are taken to stay inside the 64-bit range.
* `float64` / `double precision` values are rationals (`ℚ`).  The percentages of
  `GetPriceChange` and of the rankings and the conversion `float64(bytes)` of `formatBytes`
  are rounded as IEEE 754 binary64 operations are (`float64OfInt64`, `roundFloat64`); the
  averages of `GetPriceStats` and the duration arithmetic of `GetPriceHistory` are exact.
* A statement is first analysed and then run: PostgreSQL rejects a grouped `SELECT` whose
  select list names a column that is neither grouped nor inside an aggregate
  (`checkUngroupedColumns`), and a rejected statement changes nothing.
* A Go `string` is a `String`, read as its list of code points; a `map` is the `List` of
  its entries in the order in which `range` visits them.
* The SQL statements are read relationally: `WHERE` is a filter, `GROUP BY` makes one
  output row per distinct key, an aggregate ranges over the rows of its group, and
  `FIRST_VALUE` / `LAST_VALUE ... OVER (PARTITION BY key ORDER BY t)` is the value in the
  first / last row of the group once it is ordered by `t`.  `AVG` is an exact `numeric`;
  it is rounded when it is stored in a `bigint` column.
-/

namespace OsrsPriceApi

/-! ## Time -/

/-- Go `time.Second`, in nanoseconds. -/
def Second : Int := 1000000000

/-- Go `time.Hour`, in nanoseconds. -/
def Hour : Int := 3600000000000

/-- Twenty-four hours (`24 * time.Hour`), in nanoseconds. -/
def Day : Int := 24 * Hour

/-- Largest `time.Duration` (`1<<63 - 1`). -/
def maxDuration : Int := 9223372036854775807

/-- Smallest `time.Duration` (`-1 << 63`). -/
def minDuration : Int := -9223372036854775808

/-- Go `Time.Sub`: the duration `t - u`, saturated to the range of `time.Duration`. -/
def Sub (t u : Int) : Int :=
  if t - u > maxDuration then maxDuration
  else if t - u < minDuration then minDuration
  else t - u

/-- Go `Duration.Hours`: `float64(d / Hour) + float64(d % Hour) / (60*60*1e9)`, with Go's
truncating `/` and `%`. -/
def Hours (d : Int) : ℚ :=
  ((Int.tdiv d Hour : Int) : ℚ) + ((Int.tmod d Hour : Int) : ℚ) / (60 * 60 * 1000000000)

/-- Go conversion `int(x)` of a floating-point value: the fraction is discarded
(truncation toward zero). -/
def truncToInt (q : ℚ) : Int := if 0 ≤ q then ⌊q⌋ else ⌈q⌉

/-- Value of `daysAgo := int(now.Sub(startTime).Hours() / 24)` in `GetPriceHistory`. -/
def daysAgo (now startTime : Int) : Int := truncToInt (Hours (Sub now startTime) / 24)

/-- PostgreSQL `date_trunc('hour', t)`. -/
def dateTruncHour (t : Int) : Int := t / Hour * Hour

/-- PostgreSQL `DATE(t)`, and Go `t.Truncate(24*time.Hour)`: midnight (UTC) of the day of `t`. -/
def dateOf (t : Int) : Int := t / Day * Day

/-! ## Data model (`internal/models`) -/

/-- Row of `price_history` (`models.PriceHistory`). -/
structure PriceHistory where
  ItemID : Int
  High : Int
  HighTime : Int
  Low : Int
  LowTime : Int
  HighVolume : Int
  LowVolume : Int
  Timestamp : Int
deriving DecidableEq

/-- Row of `price_history_hourly` (`models.PriceHistoryHourly`). -/
structure PriceHistoryHourly where
  ItemID : Int
  AvgHigh : Int
  AvgLow : Int
  MaxHigh : Int
  MinLow : Int
  OpeningHigh : Int
  OpeningLow : Int
  ClosingHigh : Int
  ClosingLow : Int
  TotalHighVolume : Int
  TotalLowVolume : Int
  DataPoints : Int
  HourTimestamp : Int
deriving DecidableEq

/-- Row of `price_history_daily` (`models.PriceHistoryDaily`). -/
structure PriceHistoryDaily where
  ItemID : Int
  AvgHigh : Int
  AvgLow : Int
  MaxHigh : Int
  MinLow : Int
  OpeningHigh : Int
  OpeningLow : Int
  ClosingHigh : Int
  ClosingLow : Int
  TotalHighVolume : Int
  TotalLowVolume : Int
  Volatility : ℚ
  DataPoints : Int
  DayDate : Int
deriving DecidableEq

/-- The three tables behind `Repository.db`.  `price_history_hourly` and
`price_history_daily` are taken to exist with the columns and indexes of their models
(`AutoMigrate` of `connection.go` creates `price_history` only). -/
structure Store where
  price_history : List PriceHistory
  price_history_hourly : List PriceHistoryHourly
  price_history_daily : List PriceHistoryDaily
deriving DecidableEq

/-! ## Range query (`Repository.GetPriceHistory`) -/

/-- The table a range query is answered from. -/
inductive Tier where
  | raw
  | hourly
  | daily
deriving DecidableEq

/-- Branch taken by `GetPriceHistory`: `daysAgo <= 7`, else `daysAgo <= 90`, else the rest. -/
def selectTier (now startTime : Int) : Tier :=
  if daysAgo now startTime ≤ 7 then Tier.raw
  else if daysAgo now startTime ≤ 90 then Tier.hourly
  else Tier.daily

/-- SQL `ORDER BY col ASC`: the rows in non-decreasing order of the column `col`; rows
that tie on `col` keep their stored order. -/
def orderBy {α : Type} (col : α → Int) (rows : List α) : List α :=
  rows.insertionSort (fun a b => col a ≤ col b)

/-- SQL `ORDER BY timestamp ASC` on `price_history`. -/
def orderByTimestamp (rows : List PriceHistory) : List PriceHistory :=
  orderBy (fun r => r.Timestamp) rows

/-- SQL `ORDER BY hour_timestamp ASC` on `price_history_hourly`. -/
def orderByHourTimestamp (rows : List PriceHistoryHourly) : List PriceHistoryHourly :=
  orderBy (fun h => h.HourTimestamp) rows

/-- SQL `ORDER BY day_date ASC` on `price_history_daily`. -/
def orderByDayDate (rows : List PriceHistoryDaily) : List PriceHistoryDaily :=
  orderBy (fun d => d.DayDate) rows

/-- Raw branch: `item_id = ? AND timestamp BETWEEN ? AND ?`, `ORDER BY timestamp ASC`. -/
def rawHistory (table : List PriceHistory) (itemID startTime endTime : Int) :
    List PriceHistory :=
  orderByTimestamp
    (table.filter (fun r =>
      decide (r.ItemID = itemID ∧ startTime ≤ r.Timestamp ∧ r.Timestamp ≤ endTime)))

/-- Conversion of an hourly bucket "to PriceHistory format". -/
def hourlyToPriceHistory (h : PriceHistoryHourly) : PriceHistory :=
  { ItemID := h.ItemID, High := h.AvgHigh, HighTime := 0, Low := h.AvgLow, LowTime := 0,
    HighVolume := h.TotalHighVolume, LowVolume := h.TotalLowVolume,
    Timestamp := h.HourTimestamp }

/-- Conversion of a daily bucket "to PriceHistory format". -/
def dailyToPriceHistory (d : PriceHistoryDaily) : PriceHistory :=
  { ItemID := d.ItemID, High := d.AvgHigh, HighTime := 0, Low := d.AvgLow, LowTime := 0,
    HighVolume := d.TotalHighVolume, LowVolume := d.TotalLowVolume,
    Timestamp := d.DayDate }

/-- Hourly branch: `item_id = ? AND hour_timestamp BETWEEN ? AND ?`, ordered, converted. -/
def hourlyHistory (table : List PriceHistoryHourly) (itemID startTime endTime : Int) :
    List PriceHistory :=
  (orderByHourTimestamp
    (table.filter (fun h =>
      decide (h.ItemID = itemID ∧ startTime ≤ h.HourTimestamp ∧ h.HourTimestamp ≤ endTime)))).map
    hourlyToPriceHistory

/-- Daily branch: `item_id = ? AND day_date BETWEEN ? AND ?` with both bounds truncated to
the day, ordered, converted. -/
def dailyHistory (table : List PriceHistoryDaily) (itemID startTime endTime : Int) :
    List PriceHistory :=
  (orderByDayDate
    (table.filter (fun d =>
      decide (d.ItemID = itemID ∧ dateOf startTime ≤ d.DayDate ∧ d.DayDate ≤ dateOf endTime)))).map
    dailyToPriceHistory

/-- `Repository.GetPriceHistory`, with the clock reading `now` made explicit. -/
def GetPriceHistory (now : Int) (db : Store) (itemID startTime endTime : Int) :
    List PriceHistory :=
  match selectTier now startTime with
  | Tier.raw => rawHistory db.price_history itemID startTime endTime
  | Tier.hourly => hourlyHistory db.price_history_hourly itemID startTime endTime
  | Tier.daily => dailyHistory db.price_history_daily itemID startTime endTime

/-! ## SQL aggregates and insertion -/

/-- SQL `AVG` over the `bigint` values of a (non-empty) group: an exact `numeric`. -/
def sqlAvg (xs : List Int) : ℚ := (xs.sum : ℚ) / (xs.length : ℚ)

/-- Assignment of a `numeric` value to a `bigint` column (the `int64` fields `AvgHigh`,
`AvgLow`): PostgreSQL rounds to the nearest integer, ties away from zero. -/
def numericToBigint (q : ℚ) : Int := if 0 ≤ q then ⌊q + 1 / 2⌋ else -⌊-q + 1 / 2⌋

/-- SQL `MAX` over the values of a group (groups are never empty). -/
def sqlMax : List Int → Int
  | [] => 0
  | x :: xs => xs.foldl max x

/-- SQL `MIN` over the values of a group (groups are never empty). -/
def sqlMin : List Int → Int
  | [] => 0
  | x :: xs => xs.foldl min x

/-- `FIRST_VALUE(col) OVER (... ORDER BY t)`, given the group already ordered by `t`. -/
def firstValue {α : Type} (col : α → Int) (ordered : List α) : Int :=
  match ordered.head? with
  | some r => col r
  | none => 0

/-- `LAST_VALUE(col) OVER (... ORDER BY t ROWS BETWEEN UNBOUNDED PRECEDING AND UNBOUNDED
FOLLOWING)`, given the group already ordered by `t`. -/
def lastValue {α : Type} (col : α → Int) (ordered : List α) : Int :=
  match ordered.getLast? with
  | some r => col r
  | none => 0

/-- SQL `/` on `double precision`: a zero divisor raises `division_by_zero`. -/
def sqlDivide (a b : ℚ) : Option ℚ := if b = 0 then none else some (a / b)

/-- Evaluation of one expression per output row; the statement fails when one of them
fails. -/
def allRows {α : Type} : List (Option α) → Option (List α)
  | [] => some []
  | none :: _ => none
  | some a :: xs => (allRows xs).map (fun rest => a :: rest)

/-- `INSERT ... ON CONFLICT DO NOTHING`: each proposed row is appended to the table unless
it collides, on a unique index of the table, with a row already there (rows appended
earlier by the same statement included).  `conflict` is the collision test given by the
table's unique indexes.  Returns the new table and `RowsAffected`. -/
def insertOnConflictDoNothing {α : Type} (conflict : α → α → Bool) :
    List α → List α → List α × Int
  | table, [] => (table, 0)
  | table, r :: rows =>
    if table.any (conflict r) then insertOnConflictDoNothing conflict table rows
    else
      ((insertOnConflictDoNothing conflict (table ++ [r]) rows).1,
        (insertOnConflictDoNothing conflict (table ++ [r]) rows).2 + 1)

/-! ## Analysis of a grouped `SELECT` -/

/-- Expressions that occur in the select lists of the two rollup statements. -/
inductive SqlExpr where
  | column (name : String)
  | literal (value : Int)
  | dateTruncHour (arg : SqlExpr)
  | date (arg : SqlExpr)
  | avg (arg : SqlExpr)
  | max (arg : SqlExpr)
  | min (arg : SqlExpr)
  | sum (arg : SqlExpr)
  | countStar
  | firstValue (arg partition1 partition2 order : SqlExpr)
  | lastValue (arg partition1 partition2 order : SqlExpr)
  | castFloat (arg : SqlExpr)
  | sub (a b : SqlExpr)
  | div (a b : SqlExpr)
  | gt (a b : SqlExpr)
  | caseWhen (cond thenValue elseValue : SqlExpr)
deriving DecidableEq

/-- The columns of an expression that a query with `GROUP BY groupBy` may not name: those
that are neither part of a grouping expression nor inside an aggregate.  A window function
is computed after grouping, so its argument, its `PARTITION BY` and its `ORDER BY` are
checked like any other expression. -/
def ungroupedColumns (groupBy : List SqlExpr) : SqlExpr → List String
  | SqlExpr.column name => if SqlExpr.column name ∈ groupBy then [] else [name]
  | SqlExpr.literal _ => []
  | SqlExpr.dateTruncHour arg =>
    if SqlExpr.dateTruncHour arg ∈ groupBy then [] else ungroupedColumns groupBy arg
  | SqlExpr.date arg =>
    if SqlExpr.date arg ∈ groupBy then [] else ungroupedColumns groupBy arg
  | SqlExpr.avg _ => []
  | SqlExpr.max _ => []
  | SqlExpr.min _ => []
  | SqlExpr.sum _ => []
  | SqlExpr.countStar => []
  | SqlExpr.firstValue arg p1 p2 order =>
    ungroupedColumns groupBy arg ++ ungroupedColumns groupBy p1 ++
      ungroupedColumns groupBy p2 ++ ungroupedColumns groupBy order
  | SqlExpr.lastValue arg p1 p2 order =>
    ungroupedColumns groupBy arg ++ ungroupedColumns groupBy p1 ++
      ungroupedColumns groupBy p2 ++ ungroupedColumns groupBy order
  | SqlExpr.castFloat arg => ungroupedColumns groupBy arg
  | SqlExpr.sub a b => ungroupedColumns groupBy a ++ ungroupedColumns groupBy b
  | SqlExpr.div a b => ungroupedColumns groupBy a ++ ungroupedColumns groupBy b
  | SqlExpr.gt a b => ungroupedColumns groupBy a ++ ungroupedColumns groupBy b
  | SqlExpr.caseWhen c t e =>
    ungroupedColumns groupBy c ++ ungroupedColumns groupBy t ++ ungroupedColumns groupBy e

/-- Errors that PostgreSQL raises for the rollup statements: `grouping_error` (SQLSTATE
42803, "column ... must appear in the GROUP BY clause or be used in an aggregate function")
at analysis, `division_by_zero` while the statement runs. -/
inductive PgError where
  | groupingError (column : String)
  | divisionByZero
deriving DecidableEq

/-- Analysis of the select list of a grouped query: the error for the first ungrouped
column, if there is one. -/
def checkUngroupedColumns (groupBy targetList : List SqlExpr) : Option PgError :=
  match targetList.flatMap (ungroupedColumns groupBy) with
  | [] => none
  | c :: _ => some (PgError.groupingError c)

/-! ## Raw → hourly (`Repository.AggregateToHourly`) -/

/-- `WHERE timestamp >= ? AND timestamp < ?` on `price_history`. -/
def hourlySource (startTime endTime : Int) (raw : List PriceHistory) : List PriceHistory :=
  raw.filter (fun r => decide (startTime ≤ r.Timestamp ∧ r.Timestamp < endTime))

/-- Grouping key `item_id, date_trunc('hour', timestamp)`. -/
def hourlyGroupKey (r : PriceHistory) : Int × Int := (r.ItemID, dateTruncHour r.Timestamp)

/-- The select list of `AggregateToHourly` over one group `g` with key `k`. -/
def hourlyAggregate (k : Int × Int) (g : List PriceHistory) : PriceHistoryHourly :=
  { ItemID := k.1
    AvgHigh := numericToBigint (sqlAvg (g.map (fun r => r.High)))
    AvgLow := numericToBigint (sqlAvg (g.map (fun r => r.Low)))
    MaxHigh := sqlMax (g.map (fun r => r.High))
    MinLow := sqlMin (g.map (fun r => r.Low))
    OpeningHigh := firstValue (fun r => r.High) (orderByTimestamp g)
    OpeningLow := firstValue (fun r => r.Low) (orderByTimestamp g)
    ClosingHigh := lastValue (fun r => r.High) (orderByTimestamp g)
    ClosingLow := lastValue (fun r => r.Low) (orderByTimestamp g)
    TotalHighVolume := (g.map (fun r => r.HighVolume)).sum
    TotalLowVolume := (g.map (fun r => r.LowVolume)).sum
    DataPoints := (g.length : Int)
    HourTimestamp := k.2 }

/-- Rows of a `SELECT ... GROUP BY item_id, date_trunc('hour', timestamp)` that has passed
analysis: one row per distinct key among the rows of the window. -/
def hourlySelect (startTime endTime : Int) (raw : List PriceHistory) :
    List PriceHistoryHourly :=
  ((hourlySource startTime endTime raw).map hourlyGroupKey).dedup.map (fun k =>
    hourlyAggregate k
      ((hourlySource startTime endTime raw).filter (fun r => decide (hourlyGroupKey r = k))))

/-- Collision test of `price_history_hourly`: `idx_hourly_item_time` is a plain (non-unique)
index and the primary key `id` is always fresh, so no proposed row ever collides. -/
def hourlyConflict (_new _old : PriceHistoryHourly) : Bool := false

/-- `GROUP BY item_id, date_trunc('hour', timestamp)`. -/
def hourlyGroupBy : List SqlExpr :=
  [SqlExpr.column "item_id", SqlExpr.dateTruncHour (SqlExpr.column "timestamp")]

/-- `fn(col) OVER (PARTITION BY item_id, date_trunc('hour', timestamp) ORDER BY timestamp
...)`, the window expression of `AggregateToHourly`. -/
def hourlyWindow (fn : SqlExpr → SqlExpr → SqlExpr → SqlExpr → SqlExpr) (col : String) :
    SqlExpr :=
  fn (SqlExpr.column col) (SqlExpr.column "item_id")
    (SqlExpr.dateTruncHour (SqlExpr.column "timestamp")) (SqlExpr.column "timestamp")

/-- The select list of `AggregateToHourly`, in the order of the statement. -/
def hourlyTargetList : List SqlExpr :=
  [SqlExpr.column "item_id",
   SqlExpr.avg (SqlExpr.column "high"),
   SqlExpr.avg (SqlExpr.column "low"),
   SqlExpr.max (SqlExpr.column "high"),
   SqlExpr.min (SqlExpr.column "low"),
   hourlyWindow SqlExpr.firstValue "high",
   hourlyWindow SqlExpr.firstValue "low",
   hourlyWindow SqlExpr.lastValue "high",
   hourlyWindow SqlExpr.lastValue "low",
   SqlExpr.sum (SqlExpr.column "high_volume"),
   SqlExpr.sum (SqlExpr.column "low_volume"),
   SqlExpr.countStar,
   SqlExpr.dateTruncHour (SqlExpr.column "timestamp")]

/-- `Repository.AggregateToHourly`: the new store, `RowsAffected` and `result.Error`.  The
statement is analysed first; when the analysis raises an error nothing is inserted and
`RowsAffected` is 0.  `hourlySelect` gives the rows for a select list that passes the
analysis; the select list of this statement does not pass it. -/
def AggregateToHourly (startTime endTime : Int) (db : Store) : Store × Int × Option PgError :=
  match checkUngroupedColumns hourlyGroupBy hourlyTargetList with
  | some err => (db, 0, some err)
  | none =>
    ({ db with
        price_history_hourly :=
          (insertOnConflictDoNothing hourlyConflict db.price_history_hourly
            (hourlySelect startTime endTime db.price_history)).1 },
      (insertOnConflictDoNothing hourlyConflict db.price_history_hourly
        (hourlySelect startTime endTime db.price_history)).2, none)

/-! ## Hourly → daily (`Repository.AggregateToDaily`) -/

/-- `WHERE hour_timestamp >= ? AND hour_timestamp < ?` on `price_history_hourly`. -/
def dailySource (startTime endTime : Int) (hourly : List PriceHistoryHourly) :
    List PriceHistoryHourly :=
  hourly.filter (fun h => decide (startTime ≤ h.HourTimestamp ∧ h.HourTimestamp < endTime))

/-- Grouping key `item_id, DATE(hour_timestamp)`. -/
def dailyGroupKey (h : PriceHistoryHourly) : Int × Int := (h.ItemID, dateOf h.HourTimestamp)

/-- `CASE WHEN AVG(avg_high) > 0 THEN (MAX(max_high) - MIN(min_low))::float / AVG(avg_high)
ELSE 0 END`, on the values of the three aggregates. -/
def volatilityExpr (avgHigh : ℚ) (maxHigh minLow : Int) : Option ℚ :=
  if avgHigh > 0 then sqlDivide (((maxHigh - minLow : Int) : ℚ)) avgHigh else some 0

/-- The select list of `AggregateToDaily` over one group `g` with key `k`. -/
def dailyAggregate (k : Int × Int) (g : List PriceHistoryHourly) : Option PriceHistoryDaily :=
  (volatilityExpr (sqlAvg (g.map (fun h => h.AvgHigh)))
      (sqlMax (g.map (fun h => h.MaxHigh))) (sqlMin (g.map (fun h => h.MinLow)))).map
    (fun v =>
      { ItemID := k.1
        AvgHigh := numericToBigint (sqlAvg (g.map (fun h => h.AvgHigh)))
        AvgLow := numericToBigint (sqlAvg (g.map (fun h => h.AvgLow)))
        MaxHigh := sqlMax (g.map (fun h => h.MaxHigh))
        MinLow := sqlMin (g.map (fun h => h.MinLow))
        OpeningHigh := firstValue (fun h => h.OpeningHigh) (orderByHourTimestamp g)
        OpeningLow := firstValue (fun h => h.OpeningLow) (orderByHourTimestamp g)
        ClosingHigh := lastValue (fun h => h.ClosingHigh) (orderByHourTimestamp g)
        ClosingLow := lastValue (fun h => h.ClosingLow) (orderByHourTimestamp g)
        TotalHighVolume := (g.map (fun h => h.TotalHighVolume)).sum
        TotalLowVolume := (g.map (fun h => h.TotalLowVolume)).sum
        Volatility := v
        DataPoints := (g.map (fun h => h.DataPoints)).sum
        DayDate := k.2 })

/-- Rows of a `SELECT ... GROUP BY item_id, DATE(hour_timestamp)` that has passed analysis:
one row per distinct key among the buckets of the window, or `none` when an expression
raises `division_by_zero`. -/
def dailySelect (startTime endTime : Int) (hourly : List PriceHistoryHourly) :
    Option (List PriceHistoryDaily) :=
  allRows (((dailySource startTime endTime hourly).map dailyGroupKey).dedup.map (fun k =>
    dailyAggregate k
      ((dailySource startTime endTime hourly).filter (fun h => decide (dailyGroupKey h = k)))))

/-- Columns `(item_id, day_date)` of the unique index `idx_daily_item_date`. -/
def dailyKey (d : PriceHistoryDaily) : Int × Int := (d.ItemID, d.DayDate)

/-- Collision test of `price_history_daily`: the unique index `idx_daily_item_date`, named
by `ON CONFLICT (item_id, day_date)`. -/
def dailyConflict (new old : PriceHistoryDaily) : Bool :=
  decide (dailyKey new = dailyKey old)

/-- `GROUP BY item_id, DATE(hour_timestamp)`. -/
def dailyGroupBy : List SqlExpr :=
  [SqlExpr.column "item_id", SqlExpr.date (SqlExpr.column "hour_timestamp")]

/-- `fn(col) OVER (PARTITION BY item_id, DATE(hour_timestamp) ORDER BY hour_timestamp ...)`,
the window expression of `AggregateToDaily`. -/
def dailyWindow (fn : SqlExpr → SqlExpr → SqlExpr → SqlExpr → SqlExpr) (col : String) :
    SqlExpr :=
  fn (SqlExpr.column col) (SqlExpr.column "item_id")
    (SqlExpr.date (SqlExpr.column "hour_timestamp")) (SqlExpr.column "hour_timestamp")

/-- The select list of `AggregateToDaily`, in the order of the statement. -/
def dailyTargetList : List SqlExpr :=
  [SqlExpr.column "item_id",
   SqlExpr.avg (SqlExpr.column "avg_high"),
   SqlExpr.avg (SqlExpr.column "avg_low"),
   SqlExpr.max (SqlExpr.column "max_high"),
   SqlExpr.min (SqlExpr.column "min_low"),
   dailyWindow SqlExpr.firstValue "opening_high",
   dailyWindow SqlExpr.firstValue "opening_low",
   dailyWindow SqlExpr.lastValue "closing_high",
   dailyWindow SqlExpr.lastValue "closing_low",
   SqlExpr.sum (SqlExpr.column "total_high_volume"),
   SqlExpr.sum (SqlExpr.column "total_low_volume"),
   SqlExpr.caseWhen
     (SqlExpr.gt (SqlExpr.avg (SqlExpr.column "avg_high")) (SqlExpr.literal 0))
     (SqlExpr.div
       (SqlExpr.castFloat
         (SqlExpr.sub (SqlExpr.max (SqlExpr.column "max_high"))
           (SqlExpr.min (SqlExpr.column "min_low"))))
       (SqlExpr.avg (SqlExpr.column "avg_high")))
     (SqlExpr.literal 0),
   SqlExpr.sum (SqlExpr.column "data_points"),
   SqlExpr.date (SqlExpr.column "hour_timestamp")]

/-- `Repository.AggregateToDaily`: the new store, `RowsAffected` and `result.Error`.  The
statement is analysed first; when the analysis or the evaluation raises an error nothing is
inserted and `RowsAffected` is 0.  `dailySelect` gives the rows for a select list that
passes the analysis; the select list of this statement does not pass it. -/
def AggregateToDaily (startTime endTime : Int) (db : Store) : Store × Int × Option PgError :=
  match checkUngroupedColumns dailyGroupBy dailyTargetList with
  | some err => (db, 0, some err)
  | none =>
    match dailySelect startTime endTime db.price_history_hourly with
    | none => (db, 0, some PgError.divisionByZero)
    | some rows =>
      ({ db with
          price_history_daily :=
            (insertOnConflictDoNothing dailyConflict db.price_history_daily rows).1 },
        (insertOnConflictDoNothing dailyConflict db.price_history_daily rows).2, none)

/-! ## Retention (`DeleteOldPriceHistory`, `DeleteOldHourlyData`) -/

/-- `Repository.DeleteOldPriceHistory`: `DELETE ... WHERE timestamp < ?`; the new store
and `RowsAffected`. -/
def DeleteOldPriceHistory (cutoffDate : Int) (db : Store) : Store × Int :=
  ({ db with
      price_history := db.price_history.filter (fun r => !decide (r.Timestamp < cutoffDate)) },
    ((db.price_history.filter (fun r => decide (r.Timestamp < cutoffDate))).length : Int))

/-- `Repository.DeleteOldHourlyData`: `DELETE FROM price_history_hourly WHERE
hour_timestamp < ?`; the new store and `RowsAffected`. -/
def DeleteOldHourlyData (cutoffDate : Int) (db : Store) : Store × Int :=
  ({ db with
      price_history_hourly :=
        db.price_history_hourly.filter (fun h => !decide (h.HourTimestamp < cutoffDate)) },
    ((db.price_history_hourly.filter (fun h => decide (h.HourTimestamp < cutoffDate))).length :
      Int))

/-! ## Cleanup cycle (`CleanupWorker.runCleanup`) -/

/-- The six readings of `time.Now().UTC()` taken by one cycle, in program order: for
`hourlyStart`, `hourlyEnd`, `dailyStart`, `dailyEnd`, `rawDataCutoff` and
`hourlyDeleteCutoff`. -/
structure CleanupClock where
  hourlyStart : Int
  hourlyEnd : Int
  dailyStart : Int
  dailyEnd : Int
  rawDataCutoff : Int
  hourlyDeleteCutoff : Int
deriving DecidableEq

/-- Outcome of the store for the four statements of one cycle: `true` when the store fails
the statement for a reason of its own, such as a lost connection (`err != nil`); a failed
statement changes nothing.  An error raised by the statement itself is part of
`AggregateToHourly` and `AggregateToDaily`. -/
structure CleanupFaults where
  aggregateToHourly : Bool
  aggregateToDaily : Bool
  deleteOldPriceHistory : Bool
  deleteOldHourlyData : Bool
deriving DecidableEq

/-- Step 1 of `runCleanup`: `AggregateToHourly(now - 90d, now - 8d)`; an error is logged and
the cycle goes on. -/
def cleanupStep1 (clk : CleanupClock) (f : CleanupFaults) (db : Store) : Store :=
  if f.aggregateToHourly then db
  else (AggregateToHourly (clk.hourlyStart - 90 * 24 * Hour) (clk.hourlyEnd - 8 * 24 * Hour) db).1

/-- Step 2 of `runCleanup`: `AggregateToDaily(now - 5*365d, now - 90d)`; an error is logged
and the cycle goes on. -/
def cleanupStep2 (clk : CleanupClock) (f : CleanupFaults) (db : Store) : Store :=
  if f.aggregateToDaily then db
  else (AggregateToDaily (clk.dailyStart - 5 * 365 * 24 * Hour) (clk.dailyEnd - 90 * 24 * Hour) db).1

/-- `CleanupWorker.runCleanup`: steps 1 and 2, then step 3 `DeleteOldPriceHistory(now - 8d)`
(an error ends the cycle) and step 4 `DeleteOldHourlyData(now - 90d)`.  The closing
`GetDatabaseStats` only reads. -/
def runCleanup (clk : CleanupClock) (f : CleanupFaults) (db : Store) : Store :=
  if f.deleteOldPriceHistory then cleanupStep2 clk f (cleanupStep1 clk f db)
  else if f.deleteOldHourlyData then
    (DeleteOldPriceHistory (clk.rawDataCutoff - 8 * 24 * Hour)
      (cleanupStep2 clk f (cleanupStep1 clk f db))).1
  else
    (DeleteOldHourlyData (clk.hourlyDeleteCutoff - 90 * 24 * Hour)
      (DeleteOldPriceHistory (clk.rawDataCutoff - 8 * 24 * Hour)
        (cleanupStep2 clk f (cleanupStep1 clk f db))).1).1

/-! ## Machine arithmetic (`int64`, `float64`) -/

/-- Two's-complement wrap-around of an `int64` result. -/
def int64Wrap (x : Int) : Int := (x + 2 ^ 63) % 2 ^ 64 - 2 ^ 63

/-- The number of low bits of the magnitude `m` that do not fit a 53-bit significand: the
least `e <= k` with `m < 2^(53+e)` (taken to be `k` when there is none). -/
def excessBits (m : Nat) : Nat → Nat
  | 0 => 0
  | k + 1 => if m < 2 ^ (53 + k) then excessBits m k else k + 1

/-- The magnitude `m` without its `e` low bits, rounded to nearest, ties to even. -/
def roundShift (m e : Nat) : Nat :=
  if 2 * (m % 2 ^ e) < 2 ^ e then m / 2 ^ e
  else if 2 ^ e < 2 * (m % 2 ^ e) then m / 2 ^ e + 1
  else if (m / 2 ^ e) % 2 = 0 then m / 2 ^ e else m / 2 ^ e + 1

/-- The float64 nearest to the magnitude `m < 2^64` (ties to the even significand); the
value is exact when `m < 2^53`. -/
def float64OfNat (m : Nat) : Nat := roundShift m (excessBits m 11) * 2 ^ excessBits m 11

/-- Go conversion `float64(x)` of an `int64`. -/
def float64OfInt64 (x : Int) : ℚ := ((Int.sign x * (float64OfNat x.natAbs : Int) : Int) : ℚ)

/-- The least `i <= k` with `n / d < 2^(i - 1100)` (taken to be `k` when there is none):
for `k = 2200` and a quotient in the normal range of a float64, `i - 1101` is the binary
exponent of `n / d`. -/
def binaryExponent (n d : Nat) : Nat → Nat
  | 0 => 0
  | k + 1 => if n * 2 ^ 1100 < d * 2 ^ k then binaryExponent n d k else k + 1

/-- The quotient `n / d` rounded to the nearest integer, ties to the even one. -/
def roundDiv (n d : Nat) : Nat :=
  if 2 * (n % d) < d then n / d
  else if d < 2 * (n % d) then n / d + 1
  else if (n / d) % 2 = 0 then n / d else n / d + 1

/-- Result of a float64 operation whose exact result is `q`: the nearest value with a 53-bit
significand, ties to the even significand (IEEE 754 binary64, round to nearest even).  The
magnitude `|q| = n / d` is scaled by `2^(1153 - i)` into `[2^52, 2^53)`, rounded to an
integer and scaled back.  Overflow and subnormal values are not modelled: the operands here
come from `int64` values, whose quotients and products stay far inside the normal range. -/
def roundFloat64 (q : ℚ) : ℚ :=
  if q = 0 then 0
  else
    ((Int.sign q.num *
        ((roundDiv (q.num.natAbs * 2 ^ 1153)
            (q.den * 2 ^ binaryExponent q.num.natAbs q.den 2200) *
          2 ^ binaryExponent q.num.natAbs q.den 2200 : Nat) : Int) : Int) : ℚ) /
      ((2 ^ 1153 : Nat) : ℚ)

/-! ## Point change (`Repository.GetPriceChange`) -/

/-- Errors of the `gorm` layer that the queries below can meet. -/
inductive GormError where
  | ErrRecordNotFound
deriving DecidableEq

/-- Errors of `GetPriceChange`: `fmt.Errorf("no current price data: %w", err)` and
`fmt.Errorf("no historical price data: %w", err)`, each wrapping the error of the store. -/
inductive PriceChangeError where
  | noCurrentPriceData (err : GormError)
  | noHistoricalPriceData (err : GormError)
deriving DecidableEq

/-- Outcome of a repository call: the value, or the error returned with a `nil` value. -/
inductive Result (ε α : Type) where
  | ok (value : α)
  | error (err : ε)
deriving DecidableEq

/-- `models.PriceChangeResponse`; `TimeRange` holds the duration that `duration.String()`
renders. -/
structure PriceChangeResponse where
  ItemID : Int
  CurrentHigh : Int
  CurrentLow : Int
  PreviousHigh : Int
  PreviousLow : Int
  HighChange : Int
  LowChange : Int
  HighChangePerc : ℚ
  LowChangePerc : ℚ
  TimeRange : Int
  Timestamp : Int
deriving DecidableEq

/-- SQL `ORDER BY col DESC`: the rows in non-increasing order of `col`; rows that tie on
`col` keep the order in which they arrive. -/
def orderByDesc {α β : Type} [LinearOrder β] (col : α → β) (rows : List α) : List α :=
  rows.insertionSort (fun a b => col b ≤ col a)

/-- SQL `ORDER BY col ASC` for a column of any ordered type; rows that tie on `col` keep the
order in which they arrive. -/
def orderByAsc {α β : Type} [LinearOrder β] (col : α → β) (rows : List α) : List α :=
  rows.insertionSort (fun a b => col a ≤ col b)

/-- `gorm` `First` on an ordered selection: `ORDER BY ..., id LIMIT 1` (a table lists its
rows by `id`, so ties are already in `id` order), `ErrRecordNotFound` when no row matches. -/
def First {α : Type} (ordered : List α) : Result GormError α :=
  match ordered.head? with
  | some r => Result.ok r
  | none => Result.error GormError.ErrRecordNotFound

/-- Percentage of `GetPriceChange`: `(float64(change) / float64(previous)) * 100` when
`previous > 0`, else the zero value; the two conversions, the division and the
multiplication are float64 operations.  The SQL expression `((cur - prev)::float / prev) *
100` of the rankings is the same chain of `double precision` operations. -/
def changePerc (change previous : Int) : ℚ :=
  if previous > 0 then
    roundFloat64 (roundFloat64 (float64OfInt64 change / float64OfInt64 previous) * 100)
  else 0

/-- The response built from the two rows found by `GetPriceChange`; `highChange :=
current.High - previous.High` and `lowChange := current.Low - previous.Low` are `int64`
subtractions. -/
def priceChangeOf (itemID duration : Int) (current previous : PriceHistory) :
    PriceChangeResponse :=
  { ItemID := itemID
    CurrentHigh := current.High
    CurrentLow := current.Low
    PreviousHigh := previous.High
    PreviousLow := previous.Low
    HighChange := int64Wrap (current.High - previous.High)
    LowChange := int64Wrap (current.Low - previous.Low)
    HighChangePerc := changePerc (int64Wrap (current.High - previous.High)) previous.High
    LowChangePerc := changePerc (int64Wrap (current.Low - previous.Low)) previous.Low
    TimeRange := duration
    Timestamp := current.Timestamp }

/-- `startTime := now.Add(-duration)`: the negation is an `int64` operation, so it wraps for
the smallest duration (`-minDuration = minDuration`); adding a duration to a `time.Time`
near the present does not overflow. -/
def lookbackStart (now duration : Int) : Int := now + int64Wrap (-duration)

/-- `Repository.GetPriceChange`, with the clock reading `now` made explicit. -/
def GetPriceChange (now : Int) (db : Store) (itemID duration : Int) :
    Result PriceChangeError PriceChangeResponse :=
  match First (orderByDesc (fun r : PriceHistory => r.Timestamp)
      (db.price_history.filter (fun r => decide (r.ItemID = itemID)))) with
  | Result.error err => Result.error (PriceChangeError.noCurrentPriceData err)
  | Result.ok current =>
    match First (orderByAsc (fun r : PriceHistory => r.Timestamp)
        (db.price_history.filter
          (fun r => decide (r.ItemID = itemID ∧ lookbackStart now duration ≤ r.Timestamp)))) with
    | Result.error err => Result.error (PriceChangeError.noHistoricalPriceData err)
    | Result.ok previous => Result.ok (priceChangeOf itemID duration current previous)

/-! ## Statistics (`Repository.GetPriceStats`) -/

/-- `models.PriceStats`. -/
structure PriceStats where
  ItemID : Int
  AvgHigh : ℚ
  AvgLow : ℚ
  MaxHigh : Int
  MaxLow : Int
  MinHigh : Int
  MinLow : Int
  Volatility : ℚ
  DataPoints : Int
  StartTime : Int
  EndTime : Int
deriving DecidableEq

/-- An SQL aggregate (`AVG`, `MAX`, `MIN`) over a selection without `GROUP BY`: `NULL` when
no row is selected. -/
def aggregateOrNull {β : Type} (agg : List Int → β) : List Int → Option β
  | [] => none
  | x :: xs => some (agg (x :: xs))

/-- SQL `STDDEV(col)` (sample standard deviation): `NULL` for fewer than two rows; its
value on two or more rows is supplied by `stddev`. -/
def sqlStddev (stddev : List Int → ℚ) (xs : List Int) : Option ℚ :=
  if xs.length < 2 then none else some (stddev xs)

/-- Scan of a column into an `int64` field of a struct: `NULL` leaves the zero value. -/
def scanInt64 (v : Option Int) : Int :=
  match v with
  | some x => x
  | none => 0

/-- Scan of a column into a `float64` (a field of a struct, or the variable `volatility`,
whose scan error on `NULL` is not looked at): `NULL` leaves the zero value. -/
def scanFloat64 (v : Option ℚ) : ℚ :=
  match v with
  | some x => x
  | none => 0

/-- `WHERE item_id = ? AND timestamp BETWEEN ? AND ?` of `GetPriceStats`. -/
def statsSelection (table : List PriceHistory) (itemID startTime endTime : Int) :
    List PriceHistory :=
  table.filter (fun r =>
    decide (r.ItemID = itemID ∧ startTime ≤ r.Timestamp ∧ r.Timestamp ≤ endTime))

/-- `Repository.GetPriceStats`; `stddev` is the value of the store's `STDDEV`. -/
def GetPriceStats (stddev : List Int → ℚ) (db : Store) (itemID startTime endTime : Int) :
    Result GormError PriceStats :=
  Result.ok
    { ItemID := itemID
      AvgHigh := scanFloat64 (aggregateOrNull sqlAvg
        ((statsSelection db.price_history itemID startTime endTime).map (fun r => r.High)))
      AvgLow := scanFloat64 (aggregateOrNull sqlAvg
        ((statsSelection db.price_history itemID startTime endTime).map (fun r => r.Low)))
      MaxHigh := scanInt64 (aggregateOrNull sqlMax
        ((statsSelection db.price_history itemID startTime endTime).map (fun r => r.High)))
      MaxLow := scanInt64 (aggregateOrNull sqlMax
        ((statsSelection db.price_history itemID startTime endTime).map (fun r => r.Low)))
      MinHigh := scanInt64 (aggregateOrNull sqlMin
        ((statsSelection db.price_history itemID startTime endTime).map (fun r => r.High)))
      MinLow := scanInt64 (aggregateOrNull sqlMin
        ((statsSelection db.price_history itemID startTime endTime).map (fun r => r.Low)))
      Volatility := scanFloat64 (sqlStddev stddev
        ((statsSelection db.price_history itemID startTime endTime).map (fun r => r.High)))
      DataPoints := ((statsSelection db.price_history itemID startTime endTime).length : Int)
      StartTime := startTime
      EndTime := endTime }

/-! ## Rankings (`GetTopGainers`, `GetTopLosers`) -/

/-- `SELECT DISTINCT ON (item_id) ... ORDER BY item_id, <order>` over the selected rows
`src`: one row per item, the first row of the item under `order`, the items in ascending
order. -/
def distinctOnItem (order : List PriceHistory → List PriceHistory) (src : List PriceHistory) :
    List PriceHistory :=
  (((src.map (fun r => r.ItemID)).dedup).insertionSort (fun a b => a ≤ b)).filterMap
    (fun k => (order (src.filter (fun r => decide (r.ItemID = k)))).head?)

/-- CTE `current_prices`: `WHERE timestamp >= $1 ORDER BY item_id, timestamp DESC`. -/
def currentPrices (bound : Int) (raw : List PriceHistory) : List PriceHistory :=
  distinctOnItem (orderByDesc (fun r : PriceHistory => r.Timestamp))
    (raw.filter (fun r => decide (bound ≤ r.Timestamp)))

/-- CTE `previous_prices`: `WHERE timestamp >= $2 ORDER BY item_id, timestamp ASC`. -/
def previousPrices (bound : Int) (raw : List PriceHistory) : List PriceHistory :=
  distinctOnItem (orderByAsc (fun r : PriceHistory => r.Timestamp))
    (raw.filter (fun r => decide (bound ≤ r.Timestamp)))

/-- One row of the outer `SELECT` for a joined pair `c`, `p`, converted to a
`PriceChangeResponse`.  The SQL percentage `CASE WHEN prev > 0 THEN ((cur - prev)::float /
prev) * 100 ELSE 0 END` is `changePerc`. -/
def rankingRow (duration : Int) (c p : PriceHistory) : PriceChangeResponse :=
  { ItemID := c.ItemID
    CurrentHigh := c.High
    CurrentLow := c.Low
    PreviousHigh := p.High
    PreviousLow := p.Low
    HighChange := c.High - p.High
    LowChange := c.Low - p.Low
    HighChangePerc := changePerc (c.High - p.High) p.High
    LowChangePerc := changePerc (c.Low - p.Low) p.Low
    TimeRange := duration
    Timestamp := c.Timestamp }

/-- `FROM current_prices c JOIN previous_prices p ON c.item_id = p.item_id WHERE cond`. -/
def rankingJoin (cond : PriceHistory → PriceHistory → Bool) (duration : Int)
    (current previous : List PriceHistory) : List PriceChangeResponse :=
  current.flatMap (fun c =>
    (previous.filter (fun p => decide (c.ItemID = p.ItemID) && cond c p)).map
      (fun p => rankingRow duration c p))

/-- `LIMIT $3` of a raw statement: the first `n` rows; a negative `n` is an error of the
store. -/
def sqlLimit {α : Type} (n : Int) (rows : List α) : Option (List α) :=
  if n < 0 then none else some (rows.take n.toNat)

/-- `WHERE p.prev_high > 0 AND c.high > p.prev_high` of `GetTopGainers`. -/
def gainerCond (c p : PriceHistory) : Bool := decide (p.High > 0 ∧ c.High > p.High)

/-- `WHERE p.prev_high > 0 AND c.high < p.prev_high` of `GetTopLosers`. -/
def loserCond (c p : PriceHistory) : Bool := decide (p.High > 0 ∧ c.High < p.High)

/-- `Repository.GetTopGainers`, with the clock reading `now` made explicit; the statement is
run with `$1 = now`, `$2 = startTime = now.Add(-duration)`, `$3 = limit`.  SQL fixes no order
among the rows of a join nor among rows that tie under `ORDER BY`: `arrival` is the order
in which the executor hands the joined rows to `ORDER BY high_change_perc DESC`.  `none`
when the statement raises an error. -/
def GetTopGainers (arrival : List PriceChangeResponse → List PriceChangeResponse) (now : Int)
    (db : Store) (limit duration : Int) : Option (List PriceChangeResponse) :=
  sqlLimit limit
    (orderByDesc (fun r : PriceChangeResponse => r.HighChangePerc)
      (arrival (rankingJoin gainerCond duration (currentPrices now db.price_history)
        (previousPrices (lookbackStart now duration) db.price_history))))

/-- `Repository.GetTopLosers`: as `GetTopGainers`, with `c.high < p.prev_high` and `ORDER BY
high_change_perc ASC`. -/
def GetTopLosers (arrival : List PriceChangeResponse → List PriceChangeResponse) (now : Int)
    (db : Store) (limit duration : Int) : Option (List PriceChangeResponse) :=
  sqlLimit limit
    (orderByAsc (fun r : PriceChangeResponse => r.HighChangePerc)
      (arrival (rankingJoin loserCond duration (currentPrices now db.price_history)
        (previousPrices (lookbackStart now duration) db.price_history))))

/-! ## Size formatting (`formatBytes` in `worker/cleanup.go`) -/

/-- Nearest integer of a non-negative value, ties to even. -/
def roundHalfEven (q : ℚ) : Nat :=
  let f := ⌊q⌋.toNat
  if q - f < 1 / 2 then f else if 1 / 2 < q - f then f + 1
  else if f % 2 = 0 then f else f + 1

/-- The number of tenths that the verb `%.1f` prints for the magnitude of `v`: the decimal
expansion is rounded correctly to one fractional digit. -/
def printedTenths (v : ℚ) : Nat := roundHalfEven (10 * |v|)

/-- Text of `fmt.Sprintf("%.1f", v)`. -/
def sprintfF1 (v : ℚ) : String :=
  (if v < 0 then "-" else "") ++ toString (printedTenths v / 10) ++ "." ++
    toString (printedTenths v % 10)

/-- The unit table `units := []rune{'K', 'M', 'G', 'T', 'P', 'E'}`. -/
def units : List Char := ['K', 'M', 'G', 'T', 'P', 'E']

/-- The loop `for n := bytes / unit; n >= unit; n /= unit { div *= unit; exp++ }` started
in state `(n, div, exp)`, run for at most `fuel` rounds; `none` when the rounds are used up
before the loop condition fails, else the final `(div, exp)`. -/
def formatBytesLoop : Nat → Int → Int → Nat → Option (Int × Nat)
  | 0, _, _, _ => none
  | fuel + 1, n, div, exp =>
    if 1024 ≤ n then formatBytesLoop fuel (Int.tdiv n 1024) (int64Wrap (div * 1024)) (exp + 1)
    else some (div, exp)

/-- The pair `(div, exp)` with which `formatBytes` reaches its last line, for
`bytes >= unit`: `div, exp := int64(unit), 0` followed by the loop. -/
def formatBytesDivExp (fuel : Nat) (bytes : Int) : Option (Int × Nat) :=
  formatBytesLoop fuel (Int.tdiv bytes 1024) 1024 0

/-- Result of an evaluation of `formatBytes`. -/
inductive FormatResult where
  | text (s : String)
  | indexOutOfRange
  | outOfFuel
  deriving DecidableEq, Repr

/-- `formatBytes(bytes)` with the loop bounded by `fuel` rounds.  `indexOutOfRange` is the
run-time panic of `units[exp]`; the quotient `float64(bytes)/float64(div)` is taken
exactly (`div` is a power of two, so the float64 division does not round). -/
def formatBytes (fuel : Nat) (bytes : Int) : FormatResult :=
  if bytes < 1024 then FormatResult.text "< 1 KB"
  else
    match formatBytesDivExp fuel bytes with
    | none => FormatResult.outOfFuel
    | some (div, exp) =>
      match units.get? exp with
      | none => FormatResult.indexOutOfRange
      | some u =>
        FormatResult.text (sprintfF1 (float64OfInt64 bytes / float64OfInt64 div) ++ " " ++
          String.singleton u ++ "B")

/-! ## Ingest (`SavePriceHistory`, with `fmt.Sscanf(itemIDStr, "%d", &itemID)`) -/

/-- `models.ItemPrice`, the value type of the snapshot mapping. -/
structure ItemPrice where
  ID : Int
  Name : String
  High : Int
  HighTime : Int
  Low : Int
  LowTime : Int
  HighVolume : Int
  LowVolume : Int
  deriving DecidableEq, Repr

/-- The table `space` of package `fmt`: the ranges of code points that count as blanks. -/
def space : List (Nat × Nat) :=
  [(0x0009, 0x000d), (0x0020, 0x0020), (0x0085, 0x0085), (0x00a0, 0x00a0), (0x1680, 0x1680),
   (0x2000, 0x200a), (0x2028, 0x2029), (0x202f, 0x202f), (0x205f, 0x205f), (0x3000, 0x3000)]

/-- Function `isSpace` of package `fmt`. -/
def isSpace (r : Char) : Bool :=
  space.any (fun rng => decide (rng.1 ≤ r.toNat ∧ r.toNat ≤ rng.2))

/-- Method `ss.SkipSpace` with `nlIsSpace = false` (the setting of `Sscanf`), on the unread
input: blanks are dropped, a carriage return directly before a newline is dropped, a
newline is the error "unexpected newline" (`none`). -/
def SkipSpace : List Char → Option (List Char)
  | [] => some []
  | r :: rest =>
    if r.toNat = 13 ∧ rest.head? = some (Char.ofNat 10) then SkipSpace rest
    else if r.toNat = 10 then none
    else if isSpace r then SkipSpace rest
    else some (r :: rest)

/-- The constant `sign = "+-"` of package `fmt`. -/
def sign : List Char := "+-".toList

/-- The constant `decimalDigits = "0123456789"` of package `fmt`, the digit set of the verb
`%d` (an underscore is accepted only by `%v`). -/
def decimalDigits : List Char := "0123456789".toList

/-- Method `ss.scanNumber(digits, false)`: the input must start with a rune of `digits`
(else the error "expected integer" or unexpected EOF, `none`); the token is the longest
run of such runes. -/
def scanNumber (digits : List Char) (input : List Char) : Option (List Char) :=
  match input with
  | [] => none
  | r :: rest =>
    if digits.contains r then some (r :: rest.takeWhile (fun c => digits.contains c))
    else none

/-- The number that `ParseUint` accumulates over a run of digits `0`..`9`, most significant
first: `n = n*10 + (c - '0')` for each character. -/
def decimalValue (s : List Char) : Nat := s.foldl (fun n c => 10 * n + (c.toNat - 48)) 0

/-- `strconv.ParseUint(s, 10, 64)`: `none` is a syntax error (empty text, or a character
that is not one of `0`..`9`); a value that does not fit 64 bits is reported as the largest
`uint64`, which `ParseInt` then rejects as out of range. -/
def ParseUint (s : List Char) : Option Nat :=
  if s = [] then none
  else if s.all (fun c => decide (48 ≤ c.toNat ∧ c.toNat ≤ 57)) then
    some (min (decimalValue s) (2 ^ 64 - 1))
  else none

/-- `strconv.ParseInt(s, 10, 64)`: `none` when it returns an error (syntax or range). -/
def ParseInt (s : List Char) : Option Int :=
  match s with
  | [] => none
  | c :: cs =>
    match ParseUint (if c = '+' ∨ c = '-' then cs else c :: cs) with
    | none => none
    | some un =>
      if c ≠ '-' ∧ 2 ^ 63 ≤ un then none
      else if c = '-' ∧ 2 ^ 63 < un then none
      else some (if c = '-' then -(un : Int) else (un : Int))

/-- Method `ss.scanInt('d', 64)` on the unread input: skip blanks, fail at the end of the
input, accept one sign, scan the number token and hand sign and token to `ParseInt`.
`none` is a scan error; the operand is then not assigned. -/
def scanInt (input : List Char) : Option Int :=
  match SkipSpace input with
  | none => none
  | some [] => none
  | some (r :: rest) =>
    match scanNumber decimalDigits (if sign.contains r then rest else r :: rest) with
    | none => none
    | some tok => ParseInt ((if sign.contains r then [r] else []) ++ tok)

/-- Value of the `int` operand after `fmt.Sscanf(str, "%d", &v)` when it held `v` before:
`doScanf` skips blanks for the verb and scans one integer; on any error the operand keeps
its value.  The returned count and error are not used by the caller. -/
def Sscanf (str : String) (v : Int) : Int :=
  match SkipSpace str.toList with
  | none => v
  | some input => (scanInt input).getD v

/-- The record that the loop body of `SavePriceHistory` appends for one map entry. -/
def priceRecord (timestamp : Int) (entry : String × ItemPrice) : PriceHistory :=
  { ItemID := Sscanf entry.1 0
    High := entry.2.High
    HighTime := entry.2.HighTime
    Low := entry.2.Low
    LowTime := entry.2.LowTime
    HighVolume := entry.2.HighVolume
    LowVolume := entry.2.LowVolume
    Timestamp := timestamp }

/-- `Repository.SavePriceHistory`.  `now` is the one reading of `time.Now().UTC()`, `prices`
lists the entries of the map in the order in which `range` visits them, `createFails` says
whether `CreateInBatches(records, 100)` returns an error (it runs in one transaction, so
nothing is stored then).  The result is the new store and whether an error is returned. -/
def SavePriceHistory (now : Int) (createFails : Bool) (prices : List (String × ItemPrice))
    (db : Store) : Store × Bool :=
  if 0 < (prices.map (priceRecord now)).length then
    if createFails then (db, true)
    else ({ db with price_history := db.price_history ++ prices.map (priceRecord now) }, false)
  else (db, false)

/-! ## Volume ranking (`Repository.GetTopByVolume`) -/

/-- Row returned by `GetTopByVolume`. -/
structure VolumeRow where
  ItemID : Int
  TotalVolume : Int
  AvgHigh : Int
  AvgLow : Int
deriving DecidableEq

/-- Row of the result set of the statement of `GetTopByVolume`, before it is scanned:
`AVG` of a `bigint` column is a `numeric`, which reaches the program as text. -/
structure VolumeGroup where
  ItemID : Int
  TotalVolume : Int
  AvgHigh : String
  AvgLow : String
deriving DecidableEq

/-- The number of times `n` can be divided by 10000 before it drops below 10000, counted
for at most `fuel` rounds. -/
def numericWeightLoop : Nat → Nat → Nat
  | 0, _ => 0
  | fuel + 1, n => if n < 10000 then 0 else numericWeightLoop fuel (n / 10000) + 1

/-- Weight of a magnitude in PostgreSQL's `numeric`: the number of its base-10000 digits
before the decimal point, less one (0 for the value 0). -/
def numericWeight (n : Nat) : Nat := numericWeightLoop n n

/-- Result scale that PostgreSQL selects for the quotient of two integers `a / b`
(`select_div_scale`): at least 16 significant digits, never a negative scale. -/
def selectDivScale (a b : Nat) : Nat :=
  (16 - 4 * ((numericWeight a : Int) - (numericWeight b : Int) -
    (if a / 10000 ^ numericWeight a ≤ b / 10000 ^ numericWeight b then 1 else 0))).toNat

/-- A decimal text padded with zeros on the left to the given width. -/
def padLeft (width : Nat) (s : String) : String :=
  String.mk (List.replicate (width - s.length) '0') ++ s

/-- Text of the `numeric` quotient `a / b` of two integers (`b > 0`), as `AVG` over a
`bigint` column yields it: rounded half away from zero at the selected scale and printed
with exactly that many fractional digits. -/
def numericDivText (a : Int) (b : Nat) : String :=
  (if a < 0 ∧ 0 < (2 * a.natAbs * 10 ^ selectDivScale a.natAbs b + b) / (2 * b) then "-"
    else "") ++
  toString ((2 * a.natAbs * 10 ^ selectDivScale a.natAbs b + b) / (2 * b) /
    10 ^ selectDivScale a.natAbs b) ++
  (if selectDivScale a.natAbs b = 0 then ""
    else "." ++ padLeft (selectDivScale a.natAbs b)
      (toString ((2 * a.natAbs * 10 ^ selectDivScale a.natAbs b + b) / (2 * b) %
        10 ^ selectDivScale a.natAbs b)))

/-- SQL `AVG(col)` over the `bigint` values of a (non-empty) group, as the text of the
`numeric` result. -/
def sqlAvgText (xs : List Int) : String := numericDivText xs.sum xs.length

/-- `WHERE timestamp > ?` of `GetTopByVolume`, with `cutoff = now.Add(-duration)`. -/
def volumeSource (cutoff : Int) (raw : List PriceHistory) : List PriceHistory :=
  raw.filter (fun r => decide (r.Timestamp > cutoff))

/-- `SUM(high_volume + low_volume)` over a group. -/
def totalVolume (g : List PriceHistory) : Int := (g.map (fun r => r.HighVolume + r.LowVolume)).sum

/-- The select list of `GetTopByVolume` over the group `g` of item `k`. -/
def volumeAggregate (k : Int) (g : List PriceHistory) : VolumeGroup :=
  { ItemID := k
    TotalVolume := totalVolume g
    AvgHigh := sqlAvgText (g.map (fun r => r.High))
    AvgLow := sqlAvgText (g.map (fun r => r.Low)) }

/-- `GROUP BY item_id HAVING SUM(high_volume + low_volume) > 0` over the selected rows. -/
def volumeGroups (src : List PriceHistory) : List VolumeGroup :=
  (((src.map (fun r => r.ItemID)).dedup).map (fun k =>
    volumeAggregate k (src.filter (fun r => decide (r.ItemID = k))))).filter
    (fun v => decide (v.TotalVolume > 0))

/-- `gorm` `Limit(n)`: `LIMIT n` for `n > 0`; a negative `n` cancels the clause.  For `n = 0`
the clause depends on the release of `gorm` (`LIMIT 0` is taken here); the handler passes a
limit between 1 and 100. -/
def gormLimit {α : Type} (n : Int) (rows : List α) : List α :=
  if n < 0 then rows else rows.take n.toNat

/-- The result set of the statement of `GetTopByVolume`: `ORDER BY total_volume DESC` and
the limit over the groups. -/
def volumeResultSet (now : Int) (db : Store) (limit duration : Int) : List VolumeGroup :=
  gormLimit limit
    (orderByDesc (fun v : VolumeGroup => v.TotalVolume)
      (volumeGroups (volumeSource (lookbackStart now duration) db.price_history)))

/-- Error of `Scan`: the text of a column cannot be converted to the type of the field. -/
inductive ScanError where
  | conversion (column : String) (text : String)
deriving DecidableEq

/-- Scan of one row into the result struct.  `AvgHigh` and `AvgLow` are `int64` fields: the
text of the `numeric` value is converted with `strconv.ParseInt`, which fails on a text
with a decimal point. -/
def scanVolumeRow (g : VolumeGroup) : Result ScanError VolumeRow :=
  match ParseInt g.AvgHigh.toList with
  | none => Result.error (ScanError.conversion "avg_high" g.AvgHigh)
  | some avgHigh =>
    match ParseInt g.AvgLow.toList with
    | none => Result.error (ScanError.conversion "avg_low" g.AvgLow)
    | some avgLow =>
      Result.ok { ItemID := g.ItemID, TotalVolume := g.TotalVolume, AvgHigh := avgHigh,
                  AvgLow := avgLow }

/-- `Scan(&results)` over the rows of the result set: the scanned rows, or the error of the
first row that cannot be scanned. -/
def scanVolumeRows : List VolumeGroup → Result ScanError (List VolumeRow)
  | [] => Result.ok []
  | g :: gs =>
    match scanVolumeRow g with
    | Result.error err => Result.error err
    | Result.ok r =>
      match scanVolumeRows gs with
      | Result.error err => Result.error err
      | Result.ok rs => Result.ok (r :: rs)

/-- `Repository.GetTopByVolume`, with the clock reading `now` made explicit: `Result.ok`
with the records when the returned `err` is `nil`, `Result.error` when it is not (the
handler then drops `results` and answers with the error). -/
def GetTopByVolume (now : Int) (db : Store) (limit duration : Int) :
    Result ScanError (List VolumeRow) :=
  scanVolumeRows (volumeResultSet now db limit duration)

/-! ## Theorems -/

/-- `Duration.Hours` is the exact quotient of the duration by one hour. -/
theorem Hours_eq (d : Int) : Hours d = (d : ℚ) / (Hour : ℚ) := by
  have h := Int.tdiv_add_tmod d Hour
  have hq : (d : ℚ) = (Hour : ℚ) * ((Int.tdiv d Hour : Int) : ℚ) + ((Int.tmod d Hour : Int) : ℚ) := by
    exact_mod_cast h.symm
  unfold Hours
  rw [hq]
  simp only [Hour]
  push_cast
  field_simp
  ring

/-- Truncation toward zero is at most `k ≥ 0` exactly when the value is below `k + 1`. -/
theorem truncToInt_le_iff (q : ℚ) (k : Int) (hk : 0 ≤ k) :
    truncToInt q ≤ k ↔ q < (k : ℚ) + 1 := by
  unfold truncToInt
  split_ifs with h
  · rw [← Int.lt_add_one_iff, Int.floor_lt]
    push_cast
    rfl
  · push_neg at h
    have hk' : (0 : ℚ) ≤ (k : ℚ) := by exact_mod_cast hk
    constructor
    · intro _
      linarith
    · intro _
      rw [Int.ceil_le]
      linarith

/-- Saturation of `Time.Sub` does not move a duration across a bound inside the range. -/
theorem Sub_lt_iff (now startTime b : Int) (hb : b ≤ maxDuration) (hb' : minDuration < b) :
    Sub now startTime < b ↔ now - startTime < b := by
  unfold Sub
  split_ifs with h1 h2
  · constructor
    · intro h
      omega
    · intro h
      omega
  · constructor
    · intro _
      omega
    · intro _
      omega
  · rfl

/-- The whole-day age is at most `k` exactly when the age is below `k + 1` days. -/
theorem daysAgo_le_iff (now startTime k : Int) (hk : 0 ≤ k) (hb : (k + 1) * Day ≤ maxDuration) :
    daysAgo now startTime ≤ k ↔ now - startTime < (k + 1) * Day := by
  unfold daysAgo
  rw [truncToInt_le_iff _ k hk, Hours_eq]
  have hpos : minDuration < (k + 1) * Day := by
    have : (0 : Int) < (k + 1) * Day := by
      apply Int.mul_pos
      · omega
      · decide
    have hm : minDuration < 0 := by decide
    omega
  rw [← Sub_lt_iff now startTime _ hb hpos]
  have hH : (Hour : ℚ) = 3600000000000 := by simp [Hour]
  have hD : ((Day : Int) : ℚ) = 24 * 3600000000000 := by
    simp only [Day, Hour]
    norm_num
  rw [hH, div_div, div_lt_iff₀ (by norm_num)]
  constructor
  · intro h
    have h2 : ((Sub now startTime : Int) : ℚ) < (((k + 1) * Day : Int) : ℚ) := by
      push_cast
      rw [hD]
      linarith
    exact_mod_cast h2
  · intro h
    have h2 : ((Sub now startTime : Int) : ℚ) < (((k + 1) * Day : Int) : ℚ) := by
      exact_mod_cast h
    push_cast at h2
    rw [hD] at h2
    linarith

/-- The raw branch is taken exactly when the start is less than eight days old. -/
theorem selectTier_raw_iff (now startTime : Int) :
    selectTier now startTime = Tier.raw ↔ now - startTime < 8 * Day := by
  have h7 := daysAgo_le_iff now startTime 7 (by decide) (by decide)
  unfold selectTier
  split_ifs with h1 h2
  · simp only [true_iff]
    exact h7.mp h1
  · simp only [reduceCtorEq, false_iff]
    intro h
    exact h1 (h7.mpr h)
  · simp only [reduceCtorEq, false_iff]
    intro h
    exact h1 (h7.mpr h)

/-- The hourly branch is taken exactly when the start is at least eight and less than
ninety-one days old. -/
theorem selectTier_hourly_iff (now startTime : Int) :
    selectTier now startTime = Tier.hourly ↔
      8 * Day ≤ now - startTime ∧ now - startTime < 91 * Day := by
  have h7 := daysAgo_le_iff now startTime 7 (by decide) (by decide)
  have h90 := daysAgo_le_iff now startTime 90 (by decide) (by decide)
  have hD : Day = 86400000000000 := by decide
  unfold selectTier
  split_ifs with h1 h2
  · simp only [reduceCtorEq, false_iff]
    have := h7.mp h1
    omega
  · simp only [true_iff]
    have a := h90.mp h2
    have b : ¬ (now - startTime < (7 + 1) * Day) := fun h => h1 (h7.mpr h)
    omega
  · simp only [reduceCtorEq, false_iff]
    have b : ¬ (now - startTime < (90 + 1) * Day) := fun h => h2 (h90.mpr h)
    omega

/-- The daily branch is taken exactly when the start is at least ninety-one days old. -/
theorem selectTier_daily_iff (now startTime : Int) :
    selectTier now startTime = Tier.daily ↔ 91 * Day ≤ now - startTime := by
  have h7 := daysAgo_le_iff now startTime 7 (by decide) (by decide)
  have h90 := daysAgo_le_iff now startTime 90 (by decide) (by decide)
  have hD : Day = 86400000000000 := by decide
  unfold selectTier
  split_ifs with h1 h2
  · simp only [reduceCtorEq, false_iff]
    have := h7.mp h1
    omega
  · simp only [reduceCtorEq, false_iff]
    have a := h90.mp h2
    omega
  · simp only [true_iff]
    have b : ¬ (now - startTime < (90 + 1) * Day) := fun h => h2 (h90.mpr h)
    omega

/-- C1 (as amended): the tier of `GetPriceHistory` follows the whole-day age of the start.
Raw is read exactly when `now - startTime` is below 8 days, hourly exactly when it is at
least 8 and below 91 days, daily exactly when it is at least 91 days; the result of the
query is the corresponding branch. -/
theorem C1_tier_selection (now : Int) (db : Store) (itemID startTime endTime : Int) :
    (selectTier now startTime = Tier.raw ↔ now - startTime < 8 * Day) ∧
    (selectTier now startTime = Tier.hourly ↔
      8 * Day ≤ now - startTime ∧ now - startTime < 91 * Day) ∧
    (selectTier now startTime = Tier.daily ↔ 91 * Day ≤ now - startTime) ∧
    (now - startTime < 8 * Day →
      GetPriceHistory now db itemID startTime endTime =
        rawHistory db.price_history itemID startTime endTime) ∧
    (8 * Day ≤ now - startTime → now - startTime < 91 * Day →
      GetPriceHistory now db itemID startTime endTime =
        hourlyHistory db.price_history_hourly itemID startTime endTime) ∧
    (91 * Day ≤ now - startTime →
      GetPriceHistory now db itemID startTime endTime =
        dailyHistory db.price_history_daily itemID startTime endTime) := by
  refine ⟨selectTier_raw_iff now startTime, selectTier_hourly_iff now startTime,
    selectTier_daily_iff now startTime, ?_, ?_, ?_⟩
  · intro h
    have ht := (selectTier_raw_iff now startTime).mpr h
    unfold GetPriceHistory
    rw [ht]
  · intro h1 h2
    have ht := (selectTier_hourly_iff now startTime).mpr ⟨h1, h2⟩
    unfold GetPriceHistory
    rw [ht]
  · intro h
    have ht := (selectTier_daily_iff now startTime).mpr h
    unfold GetPriceHistory
    rw [ht]

/-- C1 (counterexample): with the clock at day 100, a start 7 days + 1 second old is
still served from raw, and a start 90 days + 1 second old is still served from hourly. -/
theorem C1_counterexample :
    7 * Day < 100 * Day - (93 * Day - Second) ∧
    selectTier (100 * Day) (93 * Day - Second) = Tier.raw ∧
    90 * Day < 100 * Day - (10 * Day - Second) ∧
    selectTier (100 * Day) (10 * Day - Second) = Tier.hourly := by
  refine ⟨by decide, ?_, by decide, ?_⟩
  · rw [selectTier_raw_iff]
    decide
  · rw [selectTier_hourly_iff]
    decide

/-- C1 (witness): a start five days old is answered by the raw branch. -/
theorem C1_tier_selection_witness :
    GetPriceHistory (100 * Day) ⟨[], [], []⟩ 4151 (95 * Day) (96 * Day) =
      rawHistory [] 4151 (95 * Day) (96 * Day) :=
  (C1_tier_selection (100 * Day) ⟨[], [], []⟩ 4151 (95 * Day) (96 * Day)).2.2.2.1 (by decide)

/-- The output of `ORDER BY timestamp ASC` is in non-decreasing timestamp order. -/
theorem orderByTimestamp_sorted (rows : List PriceHistory) :
    List.Sorted (fun a b : PriceHistory => a.Timestamp ≤ b.Timestamp) (orderByTimestamp rows) := by
  haveI : IsTotal PriceHistory (fun a b : PriceHistory => a.Timestamp ≤ b.Timestamp) :=
    ⟨fun a b => le_total a.Timestamp b.Timestamp⟩
  haveI : IsTrans PriceHistory (fun a b : PriceHistory => a.Timestamp ≤ b.Timestamp) :=
    ⟨fun _ _ _ hab hbc => le_trans hab hbc⟩
  exact List.sorted_insertionSort _ rows

/-- The output of `ORDER BY timestamp ASC` holds the same rows as its input. -/
theorem orderByTimestamp_perm (rows : List PriceHistory) :
    List.Perm (orderByTimestamp rows) rows :=
  List.perm_insertionSort _ rows

/-- C2 (as amended): served from the raw tier, `GetPriceHistory` returns exactly the raw
rows of the item with `startTime <= timestamp <= endTime` (both bounds included), in
non-decreasing timestamp order. -/
theorem C2_raw_range (now : Int) (db : Store) (itemID startTime endTime : Int)
    (h : selectTier now startTime = Tier.raw) :
    List.Perm (GetPriceHistory now db itemID startTime endTime)
      (db.price_history.filter (fun r =>
        decide (r.ItemID = itemID ∧ startTime ≤ r.Timestamp ∧ r.Timestamp ≤ endTime))) ∧
    List.Sorted (fun a b : PriceHistory => a.Timestamp ≤ b.Timestamp)
      (GetPriceHistory now db itemID startTime endTime) ∧
    (∀ r : PriceHistory, r ∈ GetPriceHistory now db itemID startTime endTime ↔
      r ∈ db.price_history ∧ r.ItemID = itemID ∧
        startTime ≤ r.Timestamp ∧ r.Timestamp ≤ endTime) := by
  have hg : GetPriceHistory now db itemID startTime endTime =
      rawHistory db.price_history itemID startTime endTime := by
    unfold GetPriceHistory
    rw [h]
  rw [hg]
  refine ⟨orderByTimestamp_perm _, orderByTimestamp_sorted _, ?_⟩
  intro r
  unfold rawHistory
  rw [(orderByTimestamp_perm _).mem_iff, List.mem_filter, decide_eq_true_iff]

/-- C2 (witness): a raw-tier query over one day of a two-row table. -/
theorem C2_raw_range_witness :
    List.Perm
      (GetPriceHistory 0 ⟨[⟨4151, 1000, 0, 900, 0, 5, 7, -Hour⟩, ⟨4151, 1100, 0, 950, 0, 1, 2, 0⟩],
        [], []⟩ 4151 (-Day) 0)
      (([⟨4151, 1000, 0, 900, 0, 5, 7, -Hour⟩, ⟨4151, 1100, 0, 950, 0, 1, 2, 0⟩] :
        List PriceHistory).filter (fun r =>
          decide (r.ItemID = 4151 ∧ -Day ≤ r.Timestamp ∧ r.Timestamp ≤ 0))) :=
  (C2_raw_range 0 ⟨[⟨4151, 1000, 0, 900, 0, 5, 7, -Hour⟩, ⟨4151, 1100, 0, 950, 0, 1, 2, 0⟩],
    [], []⟩ 4151 (-Day) 0 ((selectTier_raw_iff 0 (-Day)).mpr (by decide))).1

/-- C2 (counterexample): a raw row stamped exactly `endTime` is returned, so the range is
not half-open. -/
theorem C2_counterexample :
    GetPriceHistory (100 * Day) ⟨[⟨4151, 1000, 0, 900, 0, 5, 7, 100 * Day⟩], [], []⟩
        4151 (99 * Day) (100 * Day) = [⟨4151, 1000, 0, 900, 0, 5, 7, 100 * Day⟩] ∧
    ¬ ((⟨4151, 1000, 0, 900, 0, 5, 7, 100 * Day⟩ : PriceHistory).Timestamp < 100 * Day) := by
  constructor
  · have ht : selectTier (100 * Day) (99 * Day) = Tier.raw :=
      (selectTier_raw_iff _ _).mpr (by decide)
    unfold GetPriceHistory
    rw [ht]
    decide
  · decide

/-! ### The rollup statements are rejected -/

/-- PostgreSQL rejects the statement of `AggregateToHourly` for every window and store: the
select list hands the ungrouped column `high` to `FIRST_VALUE`.  Nothing is inserted. -/
theorem AggregateToHourly_rejected (startTime endTime : Int) (db : Store) :
    AggregateToHourly startTime endTime db = (db, 0, some (PgError.groupingError "high")) :=
  rfl

/-- PostgreSQL rejects the statement of `AggregateToDaily` for every window and store: the
select list hands the ungrouped column `opening_high` to `FIRST_VALUE`.  Nothing is
inserted. -/
theorem AggregateToDaily_rejected (startTime endTime : Int) (db : Store) :
    AggregateToDaily startTime endTime db =
      (db, 0, some (PgError.groupingError "opening_high")) :=
  rfl

/-- C3 (failing input): item 4151 has three raw samples with highs 100, 150 and 120 in the
clock-hour starting at 0, all inside the window `[0, 1h)`.  `AggregateToHourly` returns
the grouping error of PostgreSQL with `RowsAffected = 0` and the hourly table stays empty:
no bucket with opening high 100, closing high 120, max high 150 and avg high 370/3 is
created.  The analysis of the select list fails on the column `high`, so the same happens
for every window and store. -/
theorem C3_no_hourly_bucket :
    AggregateToHourly 0 Hour
        ⟨[⟨4151, 100, 0, 90, 0, 5, 7, 0⟩, ⟨4151, 150, 0, 140, 0, 1, 2, 300 * Second⟩,
          ⟨4151, 120, 0, 110, 0, 3, 4, 600 * Second⟩], [], []⟩ =
      (⟨[⟨4151, 100, 0, 90, 0, 5, 7, 0⟩, ⟨4151, 150, 0, 140, 0, 1, 2, 300 * Second⟩,
          ⟨4151, 120, 0, 110, 0, 3, 4, 600 * Second⟩], [], []⟩, 0,
        some (PgError.groupingError "high")) ∧
    checkUngroupedColumns hourlyGroupBy hourlyTargetList =
      some (PgError.groupingError "high") ∧
    (∀ (startTime endTime : Int) (db : Store),
      (AggregateToHourly startTime endTime db).1.price_history_hourly =
        db.price_history_hourly ∧
      (AggregateToHourly startTime endTime db).2.2 ≠ none) := by
  refine ⟨rfl, rfl, ?_⟩
  intro startTime endTime db
  rw [AggregateToHourly_rejected]
  exact ⟨rfl, by simp⟩

/-- C4: running `AggregateToHourly(start, end)` twice in a row leaves the same hourly rows as
running it once.  The second run reports 0 rows affected, the hourly table after it is the
hourly table after the first run (no second bucket for any key, no bucket changed), and the
other tables are untouched.  Each run is rejected at analysis and returns an error, so
neither of them inserts a bucket. -/
theorem C4_second_run_inserts_nothing (startTime endTime : Int) (db : Store) :
    (AggregateToHourly startTime endTime
        (AggregateToHourly startTime endTime db).1).1.price_history_hourly =
      (AggregateToHourly startTime endTime db).1.price_history_hourly ∧
    (AggregateToHourly startTime endTime (AggregateToHourly startTime endTime db).1).2.1 = 0 ∧
    (∀ key : Int × Int,
      ((AggregateToHourly startTime endTime
          (AggregateToHourly startTime endTime db).1).1.price_history_hourly.filter
        (fun b => decide ((b.ItemID, b.HourTimestamp) = key))).length =
      ((AggregateToHourly startTime endTime db).1.price_history_hourly.filter
        (fun b => decide ((b.ItemID, b.HourTimestamp) = key))).length) ∧
    (AggregateToHourly startTime endTime (AggregateToHourly startTime endTime db).1).1 =
      (AggregateToHourly startTime endTime db).1 ∧
    (AggregateToHourly startTime endTime db).2.2 ≠ none ∧
    (AggregateToHourly startTime endTime (AggregateToHourly startTime endTime db).1).2.2 ≠
      none := by
  rw [AggregateToHourly_rejected startTime endTime db]
  rw [AggregateToHourly_rejected startTime endTime db]
  exact ⟨rfl, rfl, fun _ => rfl, rfl, by simp, by simp⟩

/-- C6: if the daily table holds at most one bucket per `(item, day date)`, it still does
after `AggregateToDaily`; every earlier bucket is unchanged (the daily table after the pass
is the table before it followed by the new buckets, the other tables are untouched), and a
second run over the same window inserts nothing and reports 0 rows.  The statement of the
pass is rejected at analysis, so there is no new bucket: the daily table is left as it
is and the call returns an error. -/
theorem C6_daily_unique (startTime endTime : Int) (db : Store)
    (huniq : (db.price_history_daily.map dailyKey).Nodup) :
    (((AggregateToDaily startTime endTime db).1.price_history_daily).map dailyKey).Nodup ∧
    (∃ new, (AggregateToDaily startTime endTime db).1.price_history_daily =
      db.price_history_daily ++ new) ∧
    (AggregateToDaily startTime endTime db).1.price_history = db.price_history ∧
    (AggregateToDaily startTime endTime db).1.price_history_hourly = db.price_history_hourly ∧
    (AggregateToDaily startTime endTime (AggregateToDaily startTime endTime db).1).1 =
      (AggregateToDaily startTime endTime db).1 ∧
    (AggregateToDaily startTime endTime (AggregateToDaily startTime endTime db).1).2.1 = 0 ∧
    (AggregateToDaily startTime endTime db).1.price_history_daily = db.price_history_daily ∧
    (AggregateToDaily startTime endTime db).2.2 ≠ none := by
  rw [AggregateToDaily_rejected startTime endTime db]
  rw [AggregateToDaily_rejected startTime endTime db]
  exact ⟨huniq, ⟨[], (List.append_nil _).symm⟩, rfl, rfl, rfl, rfl, rfl, by simp⟩

/-- C6 (witness): a daily table with one bucket of item 4151 and two hourly buckets of the
same day in the window. -/
theorem C6_daily_unique_witness :
    (((AggregateToDaily 0 Day
        ⟨[], [⟨4151, 100, 90, 110, 80, 100, 90, 105, 85, 5, 7, 3, 0⟩,
          ⟨4151, 200, 190, 210, 180, 200, 190, 205, 185, 5, 7, 2, Hour⟩],
         [⟨4151, 150, 140, 210, 80, 100, 90, 205, 185, 10, 14, 1 / 2, 5, 0⟩]⟩).1.price_history_daily).map
      dailyKey).Nodup ∧
    (AggregateToDaily 0 Day
        ⟨[], [⟨4151, 100, 90, 110, 80, 100, 90, 105, 85, 5, 7, 3, 0⟩,
          ⟨4151, 200, 190, 210, 180, 200, 190, 205, 185, 5, 7, 2, Hour⟩],
         [⟨4151, 150, 140, 210, 80, 100, 90, 205, 185, 10, 14, 1 / 2, 5, 0⟩]⟩).2.1 = 0 := by
  have h := C6_daily_unique 0 Day
    ⟨[], [⟨4151, 100, 90, 110, 80, 100, 90, 105, 85, 5, 7, 3, 0⟩,
      ⟨4151, 200, 190, 210, 180, 200, 190, 205, 185, 5, 7, 2, Hour⟩],
     [⟨4151, 150, 140, 210, 80, 100, 90, 205, 185, 10, 14, 1 / 2, 5, 0⟩]⟩ (by decide!)
  exact ⟨h.1, rfl⟩

/-- C7 (failing input): item 4151 has raw highs 100 in hour 0 and 200, 200 in hour 1 of the
day starting at the epoch (mean 500/3).  With every table otherwise empty, the raw→hourly
pass over `[0, 1d)` is rejected and leaves the hourly table empty, the hourly→daily pass
over `[0, 1d)` is rejected as well, and the daily table stays empty: there is no daily
bucket whose `avg_high` could equal the mean of the raw highs. -/
theorem C7_no_daily_average :
    AggregateToHourly 0 Day
        ⟨[⟨4151, 100, 0, 90, 0, 5, 7, 0⟩, ⟨4151, 200, 0, 190, 0, 1, 2, Hour⟩,
          ⟨4151, 200, 0, 190, 0, 1, 2, Hour + 300 * Second⟩], [], []⟩ =
      (⟨[⟨4151, 100, 0, 90, 0, 5, 7, 0⟩, ⟨4151, 200, 0, 190, 0, 1, 2, Hour⟩,
          ⟨4151, 200, 0, 190, 0, 1, 2, Hour + 300 * Second⟩], [], []⟩, 0,
        some (PgError.groupingError "high")) ∧
    (AggregateToDaily 0 Day
        (AggregateToHourly 0 Day
          ⟨[⟨4151, 100, 0, 90, 0, 5, 7, 0⟩, ⟨4151, 200, 0, 190, 0, 1, 2, Hour⟩,
            ⟨4151, 200, 0, 190, 0, 1, 2, Hour + 300 * Second⟩], [], []⟩).1).1.price_history_daily =
      [] ∧
    (AggregateToDaily 0 Day
        (AggregateToHourly 0 Day
          ⟨[⟨4151, 100, 0, 90, 0, 5, 7, 0⟩, ⟨4151, 200, 0, 190, 0, 1, 2, Hour⟩,
            ⟨4151, 200, 0, 190, 0, 1, 2, Hour + 300 * Second⟩], [], []⟩).1).2.2 =
      some (PgError.groupingError "opening_high") ∧
    sqlAvg [100, 200, 200] = 500 / 3 := by
  refine ⟨rfl, rfl, rfl, ?_⟩
  norm_num [sqlAvg]

/-- C8 (failing input): item 4151 has three raw samples on the day starting at the epoch,
(high 100, low 90) at 0, (high 250, low 190) at 1h and (high 200, low 80) at 1h05.  After
the raw→hourly pass and the hourly→daily pass over `[0, 1d)` both the hourly and the daily
table are still empty and each pass has returned an error with 0 rows affected: there is
no daily bucket with max high 250, min low 80, 3 data points, opening high 100 and closing
high 200. -/
theorem C8_no_daily_bucket :
    (AggregateToDaily 0 Day
        (AggregateToHourly 0 Day
          ⟨[⟨4151, 100, 0, 90, 0, 5, 7, 0⟩, ⟨4151, 250, 0, 190, 0, 1, 2, Hour⟩,
            ⟨4151, 200, 0, 80, 0, 1, 2, Hour + 300 * Second⟩], [], []⟩).1).1 =
      ⟨[⟨4151, 100, 0, 90, 0, 5, 7, 0⟩, ⟨4151, 250, 0, 190, 0, 1, 2, Hour⟩,
        ⟨4151, 200, 0, 80, 0, 1, 2, Hour + 300 * Second⟩], [], []⟩ ∧
    (AggregateToHourly 0 Day
        ⟨[⟨4151, 100, 0, 90, 0, 5, 7, 0⟩, ⟨4151, 250, 0, 190, 0, 1, 2, Hour⟩,
          ⟨4151, 200, 0, 80, 0, 1, 2, Hour + 300 * Second⟩], [], []⟩).2 =
      (0, some (PgError.groupingError "high")) ∧
    (AggregateToDaily 0 Day
        (AggregateToHourly 0 Day
          ⟨[⟨4151, 100, 0, 90, 0, 5, 7, 0⟩, ⟨4151, 250, 0, 190, 0, 1, 2, Hour⟩,
            ⟨4151, 200, 0, 80, 0, 1, 2, Hour + 300 * Second⟩], [], []⟩).1).2 =
      (0, some (PgError.groupingError "opening_high")) := by
  exact ⟨rfl, rfl, rfl⟩

/-- C10: `DeleteOldPriceHistory(c)` keeps exactly the raw rows with `timestamp >= c`
(unchanged, in their order), touches no other table, returns the number of rows removed,
and a second call with the same cutoff removes nothing and returns 0; the same holds for
`DeleteOldHourlyData` on the hourly table with `hour_timestamp`. -/
theorem C10_retention (c : Int) (db : Store) :
    ((DeleteOldPriceHistory c db).1.price_history =
        db.price_history.filter (fun r => decide (c ≤ r.Timestamp)) ∧
      (∀ r, r ∈ (DeleteOldPriceHistory c db).1.price_history ↔
        r ∈ db.price_history ∧ c ≤ r.Timestamp) ∧
      (DeleteOldPriceHistory c db).2 =
        (db.price_history.length : Int) -
          ((DeleteOldPriceHistory c db).1.price_history.length : Int) ∧
      (DeleteOldPriceHistory c db).2 =
        (db.price_history.countP (fun r => decide (r.Timestamp < c)) : Int) ∧
      (DeleteOldPriceHistory c db).1.price_history_hourly = db.price_history_hourly ∧
      (DeleteOldPriceHistory c db).1.price_history_daily = db.price_history_daily ∧
      DeleteOldPriceHistory c (DeleteOldPriceHistory c db).1 =
        ((DeleteOldPriceHistory c db).1, 0)) ∧
    ((DeleteOldHourlyData c db).1.price_history_hourly =
        db.price_history_hourly.filter (fun h => decide (c ≤ h.HourTimestamp)) ∧
      (∀ h, h ∈ (DeleteOldHourlyData c db).1.price_history_hourly ↔
        h ∈ db.price_history_hourly ∧ c ≤ h.HourTimestamp) ∧
      (DeleteOldHourlyData c db).2 =
        (db.price_history_hourly.length : Int) -
          ((DeleteOldHourlyData c db).1.price_history_hourly.length : Int) ∧
      (DeleteOldHourlyData c db).2 =
        (db.price_history_hourly.countP (fun h => decide (h.HourTimestamp < c)) : Int) ∧
      (DeleteOldHourlyData c db).1.price_history = db.price_history ∧
      (DeleteOldHourlyData c db).1.price_history_daily = db.price_history_daily ∧
      DeleteOldHourlyData c (DeleteOldHourlyData c db).1 =
        ((DeleteOldHourlyData c db).1, 0)) := by
  have hraw : db.price_history.filter (fun r => !decide (r.Timestamp < c)) =
      db.price_history.filter (fun r => decide (c ≤ r.Timestamp)) := by
    apply List.filter_congr
    intro r _
    by_cases h : r.Timestamp < c
    · have h' : ¬ c ≤ r.Timestamp := not_le.mpr h
      simp [h, h']
    · have h' : c ≤ r.Timestamp := not_lt.mp h
      simp [h, h']
  have hhr : db.price_history_hourly.filter (fun h => !decide (h.HourTimestamp < c)) =
      db.price_history_hourly.filter (fun h => decide (c ≤ h.HourTimestamp)) := by
    apply List.filter_congr
    intro r _
    by_cases h : r.HourTimestamp < c
    · have h' : ¬ c ≤ r.HourTimestamp := not_le.mpr h
      simp [h, h']
    · have h' : c ≤ r.HourTimestamp := not_lt.mp h
      simp [h, h']
  have hlen : ∀ {α : Type} (p : α → Bool) (l : List α),
      ((l.filter p).length : Int) = (l.length : Int) - ((l.filter (fun x => !p x)).length : Int) := by
    intro α p l
    induction l with
    | nil => simp
    | cons a l ih =>
      cases hp : p a
      · simp only [List.filter_cons, hp, Bool.not_false, if_true, List.length_cons]
        simp only [Bool.false_eq_true, if_false]
        push_cast
        omega
      · simp only [List.filter_cons, hp, Bool.not_true, if_true, List.length_cons]
        simp only [Bool.false_eq_true, if_false]
        push_cast
        omega
  refine ⟨⟨hraw, ?_, ?_, ?_, rfl, rfl, ?_⟩, ⟨hhr, ?_, ?_, ?_, rfl, rfl, ?_⟩⟩
  · intro r
    simp only [DeleteOldPriceHistory]
    rw [hraw, List.mem_filter, decide_eq_true_iff]
  · simp only [DeleteOldPriceHistory]
    exact hlen _ _
  · simp only [DeleteOldPriceHistory]
    rw [List.countP_eq_length_filter]
  · simp only [DeleteOldPriceHistory]
    rw [List.filter_filter]
    have h1 : (db.price_history.filter (fun r => !decide (r.Timestamp < c))).filter
        (fun r => decide (r.Timestamp < c)) = [] := by
      rw [List.filter_filter, List.filter_eq_nil_iff]
      intro r _
      simp
    rw [h1]
    simp
  · intro h
    simp only [DeleteOldHourlyData]
    rw [hhr, List.mem_filter, decide_eq_true_iff]
  · simp only [DeleteOldHourlyData]
    exact hlen _ _
  · simp only [DeleteOldHourlyData]
    rw [List.countP_eq_length_filter]
  · simp only [DeleteOldHourlyData]
    rw [List.filter_filter]
    have h1 : (db.price_history_hourly.filter (fun h => !decide (h.HourTimestamp < c))).filter
        (fun h => decide (h.HourTimestamp < c)) = [] := by
      rw [List.filter_filter, List.filter_eq_nil_iff]
      intro r _
      simp
    rw [h1]
    simp

/-- Step 1 leaves the store as it is: the statement of `AggregateToHourly` is rejected, or
the store fails it. -/
theorem cleanupStep1_eq (clk : CleanupClock) (f : CleanupFaults) (db : Store) :
    cleanupStep1 clk f db = db := by
  unfold cleanupStep1
  split_ifs
  · rfl
  · rw [AggregateToHourly_rejected]

/-- Step 2 leaves the store as it is: the statement of `AggregateToDaily` is rejected, or
the store fails it. -/
theorem cleanupStep2_eq (clk : CleanupClock) (f : CleanupFaults) (db : Store) :
    cleanupStep2 clk f db = db := by
  unfold cleanupStep2
  split_ifs
  · rfl
  · rw [AggregateToDaily_rejected]

/-- C11 (failing input): with every clock reading at day 100 and no failing statement, a
raw sample 91 days old is deleted although it lies before the window `[day 10, day 92)` of
the raw→hourly pass and no hourly bucket was made from it; likewise an hourly bucket older
than five years is deleted although it lies before the window of the hourly→daily pass. -/
theorem C11_deletes_outside_window :
    runCleanup ⟨100 * Day, 100 * Day, 100 * Day, 100 * Day, 100 * Day, 100 * Day⟩
        ⟨false, false, false, false⟩
        ⟨[⟨4151, 1000, 0, 900, 0, 5, 7, 9 * Day⟩], [], []⟩ = ⟨[], [], []⟩ ∧
    ¬ (100 * Day - 90 * 24 * Hour ≤ 9 * Day) ∧
    runCleanup ⟨2000 * Day, 2000 * Day, 2000 * Day, 2000 * Day, 2000 * Day, 2000 * Day⟩
        ⟨false, false, false, false⟩
        ⟨[], [⟨4151, 1000, 900, 1000, 900, 1000, 900, 1000, 900, 5, 7, 1, 100 * Day⟩], []⟩ =
      ⟨[], [], []⟩ ∧
    ¬ (2000 * Day - 5 * 365 * 24 * Hour ≤ 100 * Day) := by
  decide!

/-- C12 (failing input): when `AggregateToHourly` fails, the raw sample of the window
`[day 10, day 92)` is deleted by the same cycle and no hourly bucket exists for it; when
`AggregateToDaily` fails, the hourly bucket of its window is deleted as well. -/
theorem C12_failed_pass_loses_rows :
    (100 * Day - 90 * 24 * Hour ≤ 50 * Day ∧ 50 * Day < 100 * Day - 8 * 24 * Hour) ∧
    runCleanup ⟨100 * Day, 100 * Day, 100 * Day, 100 * Day, 100 * Day, 100 * Day⟩
        ⟨true, false, false, false⟩
        ⟨[⟨4151, 1000, 0, 900, 0, 5, 7, 50 * Day⟩], [], []⟩ = ⟨[], [], []⟩ ∧
    (2000 * Day - 5 * 365 * 24 * Hour ≤ 1000 * Day ∧ 1000 * Day < 2000 * Day - 90 * 24 * Hour) ∧
    runCleanup ⟨2000 * Day, 2000 * Day, 2000 * Day, 2000 * Day, 2000 * Day, 2000 * Day⟩
        ⟨false, true, false, false⟩
        ⟨[], [⟨4151, 1000, 900, 1000, 900, 1000, 900, 1000, 900, 5, 7, 1, 1000 * Day⟩], []⟩ =
      ⟨[], [], []⟩ := by
  decide!

/-- C13: daily buckets are never deleted.  Whatever the clock readings and whichever
statements fail, the daily table after `runCleanup` is the daily table before it followed by
the newly created buckets, so every earlier bucket is still present and unchanged; and
`DeleteOldPriceHistory` and `DeleteOldHourlyData` leave the daily table as it is. -/
theorem C13_daily_never_deleted (clk : CleanupClock) (f : CleanupFaults) (c : Int) (db : Store) :
    (∃ new, (runCleanup clk f db).price_history_daily = db.price_history_daily ++ new) ∧
    (∀ d ∈ db.price_history_daily, d ∈ (runCleanup clk f db).price_history_daily) ∧
    (DeleteOldPriceHistory c db).1.price_history_daily = db.price_history_daily ∧
    (DeleteOldHourlyData c db).1.price_history_daily = db.price_history_daily := by
  have hpre : ∃ new, (runCleanup clk f db).price_history_daily =
      db.price_history_daily ++ new := by
    refine ⟨[], ?_⟩
    unfold runCleanup
    rw [cleanupStep1_eq, cleanupStep2_eq, List.append_nil]
    split_ifs <;> rfl
  refine ⟨hpre, ?_, rfl, rfl⟩
  obtain ⟨new, hnew⟩ := hpre
  intro d hd
  rw [hnew]
  exact List.mem_append_left _ hd

/-- The output of `ORDER BY col DESC` holds the same rows as its input. -/
theorem orderByDesc_perm {α β : Type} [LinearOrder β] (col : α → β) (rows : List α) :
    List.Perm (orderByDesc col rows) rows :=
  List.perm_insertionSort _ rows

/-- The output of `ORDER BY col ASC` holds the same rows as its input. -/
theorem orderByAsc_perm {α β : Type} [LinearOrder β] (col : α → β) (rows : List α) :
    List.Perm (orderByAsc col rows) rows :=
  List.perm_insertionSort _ rows

/-- The output of `ORDER BY col DESC` is in non-increasing order of `col`. -/
theorem orderByDesc_sorted {α β : Type} [LinearOrder β] (col : α → β) (rows : List α) :
    List.Sorted (fun a b : α => col b ≤ col a) (orderByDesc col rows) := by
  haveI : IsTotal α (fun a b : α => col b ≤ col a) := ⟨fun a b => le_total (col b) (col a)⟩
  haveI : IsTrans α (fun a b : α => col b ≤ col a) := ⟨fun _ _ _ hab hbc => le_trans hbc hab⟩
  exact List.sorted_insertionSort _ rows

/-- The output of `ORDER BY col ASC` is in non-decreasing order of `col`. -/
theorem orderByAsc_sorted {α β : Type} [LinearOrder β] (col : α → β) (rows : List α) :
    List.Sorted (fun a b : α => col a ≤ col b) (orderByAsc col rows) := by
  haveI : IsTotal α (fun a b : α => col a ≤ col b) := ⟨fun a b => le_total (col a) (col b)⟩
  haveI : IsTrans α (fun a b : α => col a ≤ col b) := ⟨fun _ _ _ hab hbc => le_trans hab hbc⟩
  exact List.sorted_insertionSort _ rows

/-- The first row under `ORDER BY col DESC` is a row with the greatest `col`. -/
theorem orderByDesc_head {α β : Type} [LinearOrder β] (col : α → β) (rows : List α) (r : α)
    (h : (orderByDesc col rows).head? = some r) : r ∈ rows ∧ ∀ x ∈ rows, col x ≤ col r := by
  have hp := orderByDesc_perm col rows
  have hs := orderByDesc_sorted col rows
  cases hl : orderByDesc col rows with
  | nil => rw [hl] at h; simp at h
  | cons r0 rest =>
    rw [hl] at h hs
    simp only [List.head?_cons, Option.some.injEq] at h
    subst h
    constructor
    · rw [← hp.mem_iff, hl]
      exact List.mem_cons_self _ _
    · intro x hx
      rw [← hp.mem_iff, hl] at hx
      rcases List.mem_cons.mp hx with hx | hx
      · rw [hx]
      · exact List.rel_of_sorted_cons hs x hx

/-- The first row under `ORDER BY col ASC` is a row with the least `col`. -/
theorem orderByAsc_head {α β : Type} [LinearOrder β] (col : α → β) (rows : List α) (r : α)
    (h : (orderByAsc col rows).head? = some r) : r ∈ rows ∧ ∀ x ∈ rows, col r ≤ col x := by
  have hp := orderByAsc_perm col rows
  have hs := orderByAsc_sorted col rows
  cases hl : orderByAsc col rows with
  | nil => rw [hl] at h; simp at h
  | cons r0 rest =>
    rw [hl] at h hs
    simp only [List.head?_cons, Option.some.injEq] at h
    subst h
    constructor
    · rw [← hp.mem_iff, hl]
      exact List.mem_cons_self _ _
    · intro x hx
      rw [← hp.mem_iff, hl] at hx
      rcases List.mem_cons.mp hx with hx | hx
      · rw [hx]
      · exact List.rel_of_sorted_cons hs x hx

/-- `First` finds a row exactly when the selection has a first row. -/
theorem First_ok_iff {α : Type} (l : List α) (r : α) :
    First l = Result.ok r ↔ l.head? = some r := by
  unfold First
  cases l.head? with
  | none => simp
  | some a => simp

/-- `First` reports `ErrRecordNotFound` exactly when the selection is empty. -/
theorem First_error_iff {α : Type} (l : List α) (e : GormError) :
    First l = Result.error e ↔ l = [] := by
  unfold First
  cases l with
  | nil => cases e; simp
  | cons a l => simp

/-- An `int64` result that fits the range is not changed by the wrap-around. -/
theorem int64Wrap_eq (x : Int) (h1 : -2 ^ 63 ≤ x) (h2 : x < 2 ^ 63) : int64Wrap x = x := by
  unfold int64Wrap
  norm_num at h1 h2 ⊢
  omega

/-- For every duration other than the smallest one, `now.Add(-duration)` is `now -
duration`. -/
theorem lookbackStart_eq (now duration : Int) (h1 : minDuration < duration)
    (h2 : duration ≤ maxDuration) : lookbackStart now duration = now - duration := by
  unfold lookbackStart
  rw [int64Wrap_eq]
  · ring
  · simp only [maxDuration] at h2
    norm_num
    omega
  · simp only [minDuration] at h1
    norm_num
    omega

/-- The two lookups of `GetPriceChange` decide its outcome. -/
theorem GetPriceChange_ok_iff (now : Int) (db : Store) (itemID duration : Int)
    (resp : PriceChangeResponse) :
    GetPriceChange now db itemID duration = Result.ok resp ↔
      ∃ current previous,
        (orderByDesc (fun r : PriceHistory => r.Timestamp)
          (db.price_history.filter (fun r => decide (r.ItemID = itemID)))).head? = some current ∧
        (orderByAsc (fun r : PriceHistory => r.Timestamp)
          (db.price_history.filter
            (fun r => decide (r.ItemID = itemID ∧
              lookbackStart now duration ≤ r.Timestamp)))).head? = some previous ∧
        resp = priceChangeOf itemID duration current previous := by
  unfold GetPriceChange
  cases h1 : First (orderByDesc (fun r : PriceHistory => r.Timestamp)
      (db.price_history.filter (fun r => decide (r.ItemID = itemID)))) with
  | error e =>
    rw [First_error_iff] at h1
    simp [h1]
  | ok current =>
    rw [First_ok_iff] at h1
    cases h2 : First (orderByAsc (fun r : PriceHistory => r.Timestamp)
        (db.price_history.filter
          (fun r => decide (r.ItemID = itemID ∧ lookbackStart now duration ≤ r.Timestamp)))) with
    | error e =>
      rw [First_error_iff] at h2
      constructor
      · intro h
        cases h
      · rintro ⟨c, p, -, hp, -⟩
        rw [h2] at hp
        simp at hp
    | ok previous =>
      rw [First_ok_iff] at h2
      simp only [h1, h2, Result.ok.injEq, Option.some.injEq]
      constructor
      · intro h
        exact ⟨current, previous, rfl, rfl, h.symm⟩
      · rintro ⟨c, p, rfl, rfl, h⟩
        exact h.symm

/-- C14: whenever `GetPriceChange(item, duration)` succeeds, `current` is a raw row of the
item with the greatest timestamp and `previous` a raw row of the item with the smallest
timestamp among those at or after the lookback start `now.Add(-duration)`, which is `now -
duration` for every duration but the smallest; the response carries their highs and lows;
`HighChange` and `LowChange` are the `int64` differences, equal to `current.High -
previous.High` and `current.Low - previous.Low` whenever these fit an `int64`; and each
percentage is the float64 value of `change / previous * 100` when the previous value is
positive and `0` otherwise. -/
theorem C14_point_change (now : Int) (db : Store) (itemID duration : Int)
    (resp : PriceChangeResponse)
    (h : GetPriceChange now db itemID duration = Result.ok resp) :
    ∃ current previous : PriceHistory,
      (current ∈ db.price_history ∧ current.ItemID = itemID ∧
        ∀ r ∈ db.price_history, r.ItemID = itemID → r.Timestamp ≤ current.Timestamp) ∧
      (previous ∈ db.price_history ∧ previous.ItemID = itemID ∧
        lookbackStart now duration ≤ previous.Timestamp ∧
        ∀ r ∈ db.price_history, r.ItemID = itemID → lookbackStart now duration ≤ r.Timestamp →
          previous.Timestamp ≤ r.Timestamp) ∧
      (minDuration < duration → duration ≤ maxDuration →
        lookbackStart now duration = now - duration) ∧
      resp.ItemID = itemID ∧ resp.Timestamp = current.Timestamp ∧
      resp.CurrentHigh = current.High ∧ resp.CurrentLow = current.Low ∧
      resp.PreviousHigh = previous.High ∧ resp.PreviousLow = previous.Low ∧
      resp.HighChange = int64Wrap (current.High - previous.High) ∧
      resp.LowChange = int64Wrap (current.Low - previous.Low) ∧
      (-2 ^ 63 ≤ current.High - previous.High → current.High - previous.High < 2 ^ 63 →
        resp.HighChange = current.High - previous.High) ∧
      (-2 ^ 63 ≤ current.Low - previous.Low → current.Low - previous.Low < 2 ^ 63 →
        resp.LowChange = current.Low - previous.Low) ∧
      (previous.High > 0 →
        resp.HighChangePerc =
          roundFloat64 (roundFloat64
            (float64OfInt64 resp.HighChange / float64OfInt64 previous.High) * 100)) ∧
      (previous.High ≤ 0 → resp.HighChangePerc = 0) ∧
      (previous.Low > 0 →
        resp.LowChangePerc =
          roundFloat64 (roundFloat64
            (float64OfInt64 resp.LowChange / float64OfInt64 previous.Low) * 100)) ∧
      (previous.Low ≤ 0 → resp.LowChangePerc = 0) := by
  obtain ⟨current, previous, hc, hp, rfl⟩ :=
    (GetPriceChange_ok_iff now db itemID duration resp).mp h
  obtain ⟨hc1, hc2⟩ := orderByDesc_head _ _ current hc
  obtain ⟨hp1, hp2⟩ := orderByAsc_head _ _ previous hp
  rw [List.mem_filter, decide_eq_true_iff] at hc1 hp1
  refine ⟨current, previous, ⟨hc1.1, hc1.2, ?_⟩, ⟨hp1.1, hp1.2.1, hp1.2.2, ?_⟩,
    lookbackStart_eq now duration, rfl, rfl, rfl, rfl, rfl, rfl, rfl, rfl, ?_, ?_, ?_, ?_, ?_, ?_⟩
  · intro r hr hitem
    exact hc2 r (by rw [List.mem_filter, decide_eq_true_iff]; exact ⟨hr, hitem⟩)
  · intro r hr hitem hstart
    exact hp2 r (by rw [List.mem_filter, decide_eq_true_iff]; exact ⟨hr, hitem, hstart⟩)
  · intro h1 h2
    exact int64Wrap_eq _ h1 h2
  · intro h1 h2
    exact int64Wrap_eq _ h1 h2
  · intro hpos
    simp only [priceChangeOf, changePerc, if_pos hpos]
  · intro hle
    simp only [priceChangeOf, changePerc, if_neg (not_lt.mpr hle)]
  · intro hpos
    simp only [priceChangeOf, changePerc, if_pos hpos]
  · intro hle
    simp only [priceChangeOf, changePerc, if_neg (not_lt.mpr hle)]

/-- C14 (witness): item 4151 with (high 1000, low 900) at `T` and (high 1100, low 950) at
`T + 5min`, asked for a 10-minute lookback at `T + 5min`: `highChange = 100`,
`highChangePerc = 10`, `lowChange = 50` and `lowChangePerc` is the float64 value
5.555555555555555 of `50/900*100`. -/
theorem C14_point_change_witness :
    GetPriceChange (300 * Second)
        ⟨[⟨4151, 1000, 0, 900, 0, 5, 7, 0⟩, ⟨4151, 1100, 0, 950, 0, 1, 2, 300 * Second⟩], [], []⟩
        4151 (600 * Second) =
      Result.ok ⟨4151, 1100, 950, 1000, 900, 100, 50, 10,
        3127499741229511 / 562949953421312, 600 * Second, 300 * Second⟩ ∧
    |(3127499741229511 / 562949953421312 : ℚ) - 50 / 900 * 100| < 1 / 10 ^ 15 ∧
    ∃ current previous : PriceHistory,
      current.Timestamp = 300 * Second ∧ previous.High = 1000 ∧ previous.Low = 900 ∧
      int64Wrap (current.High - previous.High) = 100 ∧
      int64Wrap (current.Low - previous.Low) = 50 := by
  have hrun : GetPriceChange (300 * Second)
      ⟨[⟨4151, 1000, 0, 900, 0, 5, 7, 0⟩, ⟨4151, 1100, 0, 950, 0, 1, 2, 300 * Second⟩], [], []⟩
      4151 (600 * Second) =
    Result.ok ⟨4151, 1100, 950, 1000, 900, 100, 50, 10,
      3127499741229511 / 562949953421312, 600 * Second, 300 * Second⟩ := by decide!
  obtain ⟨current, previous, -, -, -, -, h5, -, -, h8, h9, h10, h11, -⟩ :=
    C14_point_change (300 * Second)
      ⟨[⟨4151, 1000, 0, 900, 0, 5, 7, 0⟩, ⟨4151, 1100, 0, 950, 0, 1, 2, 300 * Second⟩], [], []⟩
      4151 (600 * Second)
      ⟨4151, 1100, 950, 1000, 900, 100, 50, 10,
        3127499741229511 / 562949953421312, 600 * Second, 300 * Second⟩ hrun
  refine ⟨hrun, ?_, current, previous, h5.symm, h8.symm, h9.symm, h10.symm, h11.symm⟩
  rw [abs_lt]
  constructor <;> norm_num

/-- C16: for every item and window `[startTime, endTime]` in which the item has no raw row,
`GetPriceStats` returns no error and a record with `DataPoints = 0` and `AvgHigh`,
`AvgLow`, `MaxHigh`, `MaxLow`, `MinHigh`, `MinLow` and `Volatility` all `0`. -/
theorem C16_stats_empty_window (stddev : List Int → ℚ) (db : Store)
    (itemID startTime endTime : Int)
    (hempty : ∀ r ∈ db.price_history, r.ItemID = itemID →
      ¬ (startTime ≤ r.Timestamp ∧ r.Timestamp ≤ endTime)) :
    GetPriceStats stddev db itemID startTime endTime =
      Result.ok
        { ItemID := itemID, AvgHigh := 0, AvgLow := 0, MaxHigh := 0, MaxLow := 0, MinHigh := 0,
          MinLow := 0, Volatility := 0, DataPoints := 0, StartTime := startTime,
          EndTime := endTime } := by
  have hsel : statsSelection db.price_history itemID startTime endTime = [] := by
    unfold statsSelection
    rw [List.filter_eq_nil_iff]
    intro r hr
    rw [decide_eq_true_iff]
    rintro ⟨h1, h2⟩
    exact hempty r hr h1 h2
  unfold GetPriceStats
  rw [hsel]
  simp [aggregateOrNull, sqlStddev, scanFloat64, scanInt64]

/-- C16 (witness): the only raw row of item 4151 lies before the window. -/
theorem C16_stats_empty_window_witness :
    GetPriceStats (fun _ => 0) ⟨[⟨4151, 1000, 0, 900, 0, 5, 7, 0⟩], [], []⟩ 4151 Day (2 * Day) =
      Result.ok
        { ItemID := 4151, AvgHigh := 0, AvgLow := 0, MaxHigh := 0, MaxLow := 0, MinHigh := 0,
          MinLow := 0, Volatility := 0, DataPoints := 0, StartTime := Day,
          EndTime := 2 * Day } :=
  C16_stats_empty_window (fun _ => 0) ⟨[⟨4151, 1000, 0, 900, 0, 5, 7, 0⟩], [], []⟩ 4151 Day
    (2 * Day) (by decide)

/-- C17 (failing input): item 4151 goes from high 100 (ten minutes before `now`) to high 200
(five minutes before `now`) inside a one-hour lookback and has no row stamped at or after
`now`.  `current_prices` keeps only rows with `timestamp >= now`, so `GetTopGainers`
returns no record, although comparing the most recent with the earliest row at or after
the lookback start lists the item as a gainer; the mirrored input gives no loser either. -/
theorem C17_gainers_need_row_at_now :
    GetTopGainers id (100 * Day)
        ⟨[⟨4151, 100, 0, 90, 0, 5, 7, 100 * Day - 600 * Second⟩,
          ⟨4151, 200, 0, 190, 0, 1, 2, 100 * Day - 300 * Second⟩], [], []⟩ 10 Hour = some [] ∧
    (rankingJoin gainerCond Hour
        (currentPrices (100 * Day - Hour)
          [⟨4151, 100, 0, 90, 0, 5, 7, 100 * Day - 600 * Second⟩,
            ⟨4151, 200, 0, 190, 0, 1, 2, 100 * Day - 300 * Second⟩])
        (previousPrices (100 * Day - Hour)
          [⟨4151, 100, 0, 90, 0, 5, 7, 100 * Day - 600 * Second⟩,
            ⟨4151, 200, 0, 190, 0, 1, 2, 100 * Day - 300 * Second⟩])).map
      (fun r => (r.ItemID, r.PreviousHigh, r.CurrentHigh)) = [(4151, 100, 200)] ∧
    GetTopLosers id (100 * Day)
        ⟨[⟨4151, 200, 0, 190, 0, 5, 7, 100 * Day - 600 * Second⟩,
          ⟨4151, 100, 0, 90, 0, 1, 2, 100 * Day - 300 * Second⟩], [], []⟩ 10 Hour = some [] := by
  decide!

/-- Percentages that differ as exact fractions can be the same double: the gains from
676911322 to 1213985147 and from 628034981 to 1126329423 are both 79.341829209351. -/
theorem changePerc_double_tie :
    changePerc (1213985147 - 676911322) 676911322 =
      changePerc (1126329423 - 628034981) 628034981 ∧
    ((1213985147 - 676911322 : ℚ) / 676911322 ≠ (1126329423 - 628034981 : ℚ) / 628034981) := by
  constructor
  · decide!
  · norm_num

/-- The text of an average that carries a decimal point cannot be scanned into an `int64`
field. -/
theorem ParseInt_decimal_point (pre post : List Char) :
    ParseInt (pre ++ '.' :: post) = none := by
  have hU : ∀ l : List Char, '.' ∈ l → ParseUint l = none := by
    intro l hl
    unfold ParseUint
    split_ifs with h1 h2
    · rfl
    · rw [List.all_eq_true] at h2
      have := h2 '.' hl
      revert this
      decide
    · rfl
  cases pre with
  | nil =>
    unfold ParseInt
    dsimp only [List.nil_append]
    rw [if_neg (by decide), hU _ (List.mem_cons_self _ _)]
  | cons c cs =>
    unfold ParseInt
    dsimp only [List.cons_append]
    by_cases hc : c = '+' ∨ c = '-'
    · rw [if_pos hc, hU _ (by simp)]
    · rw [if_neg hc, hU _ (by simp)]

/-- The groups of `GetTopByVolume`: one row per item of the window whose total volume is
positive. -/
theorem mem_volumeGroups (src : List PriceHistory) (v : VolumeGroup) :
    v ∈ volumeGroups src ↔
      (∃ r ∈ src, r.ItemID = v.ItemID) ∧
      v = volumeAggregate v.ItemID (src.filter (fun r => decide (r.ItemID = v.ItemID))) ∧
      totalVolume (src.filter (fun r => decide (r.ItemID = v.ItemID))) > 0 := by
  unfold volumeGroups
  rw [List.mem_filter, List.mem_map, decide_eq_true_iff]
  constructor
  · rintro ⟨⟨k, hk, rfl⟩, hpos⟩
    rw [List.mem_dedup, List.mem_map] at hk
    obtain ⟨r, hr, hrk⟩ := hk
    exact ⟨⟨r, hr, hrk⟩, rfl, hpos⟩
  · rintro ⟨⟨r, hr, hrk⟩, hv, hpos⟩
    refine ⟨⟨v.ItemID, ?_, hv.symm⟩, ?_⟩
    · rw [List.mem_dedup, List.mem_map]
      exact ⟨r, hr, hrk⟩
    · rw [hv]
      exact hpos

/-- The groups of `GetTopByVolume` list no item twice. -/
theorem volumeGroups_nodup (src : List PriceHistory) :
    ((volumeGroups src).map (fun v => v.ItemID)).Nodup := by
  unfold volumeGroups
  apply List.Nodup.sublist (List.Sublist.map _ (List.filter_sublist _))
  rw [List.map_map]
  have hid : ((fun v : VolumeGroup => v.ItemID) ∘ fun k =>
      volumeAggregate k (src.filter (fun r => decide (r.ItemID = k)))) = id := by
    funext k
    rfl
  rw [hid, List.map_id]
  exact List.nodup_dedup _

/-- The result set of the statement of `GetTopByVolume` is what the ranking asks for: every
row belongs to an item with a raw row in the lookback window, its total volume is the sum
of `high_volume + low_volume` over the item's rows in the window and is greater than 0, no
item is listed twice, the rows are in non-increasing order of total volume, and for `limit
>= 0` there are at most `limit` of them. -/
theorem volumeResultSet_spec (now : Int) (db : Store) (limit duration : Int) :
    (∀ v ∈ volumeResultSet now db limit duration,
      (∃ r ∈ db.price_history, r.ItemID = v.ItemID ∧
        r.Timestamp > lookbackStart now duration) ∧
      v.TotalVolume = ((db.price_history.filter (fun r =>
        decide (r.Timestamp > lookbackStart now duration ∧ r.ItemID = v.ItemID))).map
          (fun r => r.HighVolume + r.LowVolume)).sum ∧
      v.TotalVolume > 0 ∧
      v.AvgHigh = sqlAvgText ((db.price_history.filter (fun r =>
        decide (r.Timestamp > lookbackStart now duration ∧ r.ItemID = v.ItemID))).map
          (fun r => r.High))) ∧
    ((volumeResultSet now db limit duration).map (fun v => v.ItemID)).Nodup ∧
    List.Sorted (fun a b : VolumeGroup => b.TotalVolume ≤ a.TotalVolume)
      (volumeResultSet now db limit duration) ∧
    (0 ≤ limit → ((volumeResultSet now db limit duration).length : Int) ≤ limit) := by
  have hsub : (volumeResultSet now db limit duration).Sublist
      (orderByDesc (fun v : VolumeGroup => v.TotalVolume)
        (volumeGroups (volumeSource (lookbackStart now duration) db.price_history))) := by
    unfold volumeResultSet gormLimit
    split_ifs
    · exact List.Sublist.refl _
    · exact List.take_sublist _ _
  have hperm := orderByDesc_perm (fun v : VolumeGroup => v.TotalVolume)
    (volumeGroups (volumeSource (lookbackStart now duration) db.price_history))
  have hgrp : ∀ k, (volumeSource (lookbackStart now duration) db.price_history).filter
        (fun r => decide (r.ItemID = k)) =
      db.price_history.filter
        (fun r => decide (r.Timestamp > lookbackStart now duration ∧ r.ItemID = k)) := by
    intro k
    unfold volumeSource
    rw [List.filter_filter]
    apply List.filter_congr
    intro r _
    by_cases h1 : r.Timestamp > lookbackStart now duration <;>
      by_cases h2 : r.ItemID = k <;> simp [h1, h2]
  refine ⟨?_, ?_, ?_, ?_⟩
  · intro v hv
    have hv' := hsub.subset hv
    rw [hperm.mem_iff, mem_volumeGroups] at hv'
    obtain ⟨⟨r, hr, hrk⟩, hval, hpos⟩ := hv'
    unfold volumeSource at hr
    rw [List.mem_filter, decide_eq_true_iff] at hr
    have htot : v.TotalVolume = totalVolume
        ((volumeSource (lookbackStart now duration) db.price_history).filter
          (fun r => decide (r.ItemID = v.ItemID))) := by
      conv_lhs => rw [hval]
      rfl
    have havg : v.AvgHigh = sqlAvgText
        (((volumeSource (lookbackStart now duration) db.price_history).filter
          (fun r => decide (r.ItemID = v.ItemID))).map (fun r => r.High)) := by
      conv_lhs => rw [hval]
      rfl
    refine ⟨⟨r, hr.1, hrk, hr.2⟩, ?_, ?_, ?_⟩
    · rw [htot, hgrp]
      rfl
    · rw [htot]
      exact hpos
    · rw [havg, hgrp]
  · apply List.Nodup.sublist (List.Sublist.map _ hsub)
    rw [(hperm.map _).nodup_iff]
    exact volumeGroups_nodup _
  · exact List.Pairwise.sublist hsub (orderByDesc_sorted _ _)
  · intro hnn
    have hn : ¬ limit < 0 := not_lt.mpr hnn
    unfold volumeResultSet gormLimit
    rw [if_neg hn]
    have := List.length_take_le limit.toNat
      (orderByDesc (fun v : VolumeGroup => v.TotalVolume)
        (volumeGroups (volumeSource (lookbackStart now duration) db.price_history)))
    omega

/-- The weight loop finds the base-10000 weight when it has enough rounds. -/
theorem numericWeightLoop_spec (fuel : Nat) : ∀ n : Nat, 1 ≤ n → n < 10000 ^ (fuel + 1) →
    10000 ^ numericWeightLoop fuel n ≤ n ∧ n < 10000 ^ (numericWeightLoop fuel n + 1) := by
  induction fuel with
  | zero =>
    intro n h1 h2
    simp only [numericWeightLoop, pow_zero, zero_add, pow_one] at h2 ⊢
    exact ⟨h1, h2⟩
  | succ fuel ih =>
    intro n h1 h2
    unfold numericWeightLoop
    split_ifs with hn
    · simp only [pow_zero, zero_add, pow_one]
      exact ⟨h1, hn⟩
    · have hq1 : 1 ≤ n / 10000 := by omega
      have hq2 : n / 10000 < 10000 ^ (fuel + 1) := by
        rw [pow_succ] at h2
        generalize 10000 ^ (fuel + 1) = P at h2 ⊢
        omega
      obtain ⟨ha, hb⟩ := ih (n / 10000) hq1 hq2
      constructor
      · rw [pow_succ]
        generalize 10000 ^ numericWeightLoop fuel (n / 10000) = P at ha ⊢
        omega
      · rw [pow_succ]
        generalize 10000 ^ (numericWeightLoop fuel (n / 10000) + 1) = P at hb ⊢
        omega

/-- The weight of a positive magnitude `n`: `10000^w <= n < 10000^(w+1)`. -/
theorem numericWeight_spec (n : Nat) (h1 : 1 ≤ n) :
    10000 ^ numericWeight n ≤ n ∧ n < 10000 ^ (numericWeight n + 1) := by
  unfold numericWeight
  apply numericWeightLoop_spec n n h1
  calc n < 2 ^ n := Nat.lt_two_pow n
    _ ≤ 10000 ^ n := Nat.pow_le_pow_left (by norm_num) n
    _ ≤ 10000 ^ (n + 1) := Nat.pow_le_pow_right (by norm_num) (by omega)

/-- A quotient below `10^12` is printed with at least four fractional digits. -/
theorem selectDivScale_pos (a b : Nat) (hb : 1 ≤ b) (hab : a < b * 10000 ^ 3) :
    1 ≤ selectDivScale a b := by
  have hw : numericWeight a ≤ numericWeight b + 3 := by
    rcases Nat.eq_zero_or_pos a with h0 | hpos
    · subst h0
      have : numericWeight 0 = 0 := rfl
      omega
    · obtain ⟨ha1, _⟩ := numericWeight_spec a hpos
      obtain ⟨_, hb2⟩ := numericWeight_spec b hb
      have hlt : 10000 ^ numericWeight a < 10000 ^ (numericWeight b + 1 + 3) := by
        rw [pow_add 10000 (numericWeight b + 1) 3]
        calc 10000 ^ numericWeight a ≤ a := ha1
          _ < b * 10000 ^ 3 := hab
          _ ≤ 10000 ^ (numericWeight b + 1) * 10000 ^ 3 :=
            Nat.mul_le_mul_right _ (le_of_lt hb2)
      have := (Nat.pow_lt_pow_iff_right (by norm_num : 1 < 10000)).mp hlt
      omega
  unfold selectDivScale
  split_ifs <;> omega

/-- The text of a quotient printed with a fraction has a decimal point. -/
theorem numericDivText_point (a : Int) (b : Nat) (h : 1 ≤ selectDivScale a.natAbs b) :
    ∃ pre post, (numericDivText a b).toList = pre ++ '.' :: post := by
  unfold numericDivText
  have hne : ¬ selectDivScale a.natAbs b = 0 := by omega
  rw [if_neg hne]
  generalize ((if a < 0 ∧ 0 < (2 * a.natAbs * 10 ^ selectDivScale a.natAbs b + b) / (2 * b)
      then "-" else "") ++
    toString ((2 * a.natAbs * 10 ^ selectDivScale a.natAbs b + b) / (2 * b) /
      10 ^ selectDivScale a.natAbs b)) = whole
  generalize padLeft (selectDivScale a.natAbs b)
    (toString ((2 * a.natAbs * 10 ^ selectDivScale a.natAbs b + b) / (2 * b) %
      10 ^ selectDivScale a.natAbs b)) = frac
  refine ⟨whole.data, frac.data, ?_⟩
  simp only [String.toList, String.data_append]
  rfl

/-- The magnitude of a sum of values below a bound is below the bound times their number. -/
theorem natAbs_sum_lt (xs : List Int) (B : Nat) (hne : xs ≠ [])
    (h : ∀ x ∈ xs, x.natAbs < B) : xs.sum.natAbs < xs.length * B := by
  induction xs with
  | nil => exact absurd rfl hne
  | cons x xs ih =>
    have hx := h x (List.mem_cons_self _ _)
    rcases List.eq_nil_or_concat xs with hnil | ⟨l, y, hl⟩
    · subst hnil
      simpa using hx
    · have hne' : xs ≠ [] := by rw [hl]; simp
      have ih' := ih hne' (fun z hz => h z (List.mem_cons_of_mem _ hz))
      rw [List.sum_cons, List.length_cons]
      have := Int.natAbs_add_le x xs.sum
      calc (x + xs.sum).natAbs ≤ x.natAbs + xs.sum.natAbs := this
        _ < B + xs.length * B := by omega
        _ = (xs.length + 1) * B := by ring

/-- For prices of magnitude below `10^12`, `GetTopByVolume` returns an error whenever the
statement returns a row: the average of the first row is printed with a fraction and
cannot be scanned into `AvgHigh`. -/
theorem GetTopByVolume_error_of_row (now : Int) (db : Store) (limit duration : Int)
    (hprice : ∀ r ∈ db.price_history, r.High.natAbs < 10 ^ 12)
    (hrow : volumeResultSet now db limit duration ≠ []) :
    ∃ err, GetTopByVolume now db limit duration = Result.error err := by
  obtain ⟨hspec, -, -, -⟩ := volumeResultSet_spec now db limit duration
  unfold GetTopByVolume
  cases hres : volumeResultSet now db limit duration with
  | nil => exact absurd hres hrow
  | cons g gs =>
    rw [hres] at hspec
    obtain ⟨⟨r, hr, hrid, hrt⟩, -, -, havg⟩ := hspec g (List.mem_cons_self _ _)
    have hmem : r.High ∈ (db.price_history.filter (fun r =>
        decide (r.Timestamp > lookbackStart now duration ∧ r.ItemID = g.ItemID))).map
          (fun r => r.High) := by
      apply List.mem_map_of_mem
      rw [List.mem_filter, decide_eq_true_iff]
      exact ⟨hr, hrt, hrid⟩
    have hne : (db.price_history.filter (fun r =>
        decide (r.Timestamp > lookbackStart now duration ∧ r.ItemID = g.ItemID))).map
          (fun r => r.High) ≠ [] := List.ne_nil_of_mem hmem
    have hlen : 1 ≤ ((db.price_history.filter (fun r =>
        decide (r.Timestamp > lookbackStart now duration ∧ r.ItemID = g.ItemID))).map
          (fun r => r.High)).length := List.length_pos.mpr hne
    have hsum := natAbs_sum_lt _ (10 ^ 12) hne (by
      intro x hx
      obtain ⟨r', hr', rfl⟩ := List.mem_map.mp hx
      exact hprice r' (List.mem_filter.mp hr').1)
    have hscale := selectDivScale_pos _ _ hlen (by
      have h3 : (10000 : Nat) ^ 3 = 10 ^ 12 := by norm_num
      rw [h3]
      exact hsum)
    obtain ⟨pre, post, htext⟩ := numericDivText_point _ _ hscale
    have htext' : g.AvgHigh.toList = pre ++ '.' :: post := by
      rw [havg]
      exact htext
    refine ⟨ScanError.conversion "avg_high" g.AvgHigh, ?_⟩
    unfold scanVolumeRows scanVolumeRow
    rw [htext', ParseInt_decimal_point]

/-- C20 (failing input): item 4151 has two raw rows in the last hour, (high 1000, volumes 5
and 7) and (high 1100, volumes 1 and 2).  The statement yields one row for the item with
total volume 15, as the claim says, but `AVG(high)` arrives as the text
`1050.0000000000000000`, which cannot be scanned into the `int64` field `AvgHigh`:
`GetTopByVolume` returns the conversion error and no record.  With no row in the window
the call returns the empty list.  In general, for prices of magnitude below `10^12` the
call returns an error whenever the statement returns a row, and the empty list when it
returns none. -/
theorem C20_scan_error :
    volumeResultSet (100 * Day)
        ⟨[⟨4151, 1000, 0, 900, 0, 5, 7, 100 * Day - 600 * Second⟩,
          ⟨4151, 1100, 0, 950, 0, 1, 2, 100 * Day - 300 * Second⟩], [], []⟩ 10 Hour =
      [⟨4151, 15, "1050.0000000000000000", "925.0000000000000000"⟩] ∧
    GetTopByVolume (100 * Day)
        ⟨[⟨4151, 1000, 0, 900, 0, 5, 7, 100 * Day - 600 * Second⟩,
          ⟨4151, 1100, 0, 950, 0, 1, 2, 100 * Day - 300 * Second⟩], [], []⟩ 10 Hour =
      Result.error (ScanError.conversion "avg_high" "1050.0000000000000000") ∧
    GetTopByVolume (100 * Day) ⟨[], [], []⟩ 10 Hour = Result.ok [] ∧
    (∀ (g : VolumeGroup) (pre post : List Char), g.AvgHigh.toList = pre ++ '.' :: post →
      scanVolumeRow g = Result.error (ScanError.conversion "avg_high" g.AvgHigh)) ∧
    (∀ (now : Int) (db : Store) (limit duration : Int),
      (∀ r ∈ db.price_history, r.High.natAbs < 10 ^ 12) →
      volumeResultSet now db limit duration ≠ [] →
      ∃ err, GetTopByVolume now db limit duration = Result.error err) ∧
    (∀ (now : Int) (db : Store) (limit duration : Int),
      volumeResultSet now db limit duration = [] →
      GetTopByVolume now db limit duration = Result.ok []) := by
  refine ⟨by decide, by decide, by decide, ?_, ?_, ?_⟩
  · intro g pre post hg
    unfold scanVolumeRow
    rw [hg, ParseInt_decimal_point]
  · intro now db limit duration hprice hrow
    exact GetTopByVolume_error_of_row now db limit duration hprice hrow
  · intro now db limit duration hnil
    unfold GetTopByVolume
    rw [hnil]
    rfl

/-- C22: every `startTime` that `GetPriceHistory` routes to the raw tier is later than the
raw-retention cutoff `now - 8 days` of `runCleanup`, so a raw row with `timestamp >=
startTime` is kept by `DeleteOldPriceHistory(now - 8 days)` and by a whole cleanup cycle
whose cutoff is read at that instant. -/
theorem C22_raw_tier_after_cutoff (now startTime : Int)
    (h : selectTier now startTime = Tier.raw) :
    now - 8 * 24 * Hour < startTime ∧
    (∀ (db : Store) (r : PriceHistory), r ∈ db.price_history → startTime ≤ r.Timestamp →
      r ∈ (DeleteOldPriceHistory (now - 8 * 24 * Hour) db).1.price_history) ∧
    (∀ (clk : CleanupClock) (f : CleanupFaults) (db : Store) (r : PriceHistory),
      clk.rawDataCutoff = now → r ∈ db.price_history → startTime ≤ r.Timestamp →
      r ∈ (runCleanup clk f db).price_history) := by
  have hage := (selectTier_raw_iff now startTime).mp h
  have hD : Day = 24 * Hour := rfl
  have hcut : now - 8 * 24 * Hour < startTime := by
    rw [hD] at hage
    omega
  have hkeep : ∀ (db : Store) (r : PriceHistory), r ∈ db.price_history →
      startTime ≤ r.Timestamp →
      r ∈ (DeleteOldPriceHistory (now - 8 * 24 * Hour) db).1.price_history := by
    intro db r hr hts
    simp only [DeleteOldPriceHistory]
    rw [List.mem_filter]
    refine ⟨hr, ?_⟩
    have : ¬ (r.Timestamp < now - 8 * 24 * Hour) := by omega
    rw [decide_eq_false this]
    rfl
  refine ⟨hcut, hkeep, ?_⟩
  intro clk f db r hclk hr hts
  have hr' : r ∈ (cleanupStep2 clk f (cleanupStep1 clk f db)).price_history := by
    rw [cleanupStep1_eq, cleanupStep2_eq]
    exact hr
  unfold runCleanup
  rw [hclk]
  split_ifs
  · exact hr'
  · exact hkeep _ r hr' hts
  · simp only [DeleteOldHourlyData]
    exact hkeep _ r hr' hts

/-- C22 (witness): a start five days old, with the clock at day 100. -/
theorem C22_raw_tier_after_cutoff_witness :
    100 * Day - 8 * 24 * Hour < 95 * Day ∧
    (⟨4151, 1000, 0, 900, 0, 5, 7, 96 * Day⟩ : PriceHistory) ∈
      (DeleteOldPriceHistory (100 * Day - 8 * 24 * Hour)
        ⟨[⟨4151, 1000, 0, 900, 0, 5, 7, 96 * Day⟩], [], []⟩).1.price_history := by
  have h := C22_raw_tier_after_cutoff (100 * Day) (95 * Day)
    ((selectTier_raw_iff _ _).mpr (by decide))
  exact ⟨h.1, h.2.1 ⟨[⟨4151, 1000, 0, 900, 0, 5, 7, 96 * Day⟩], [], []⟩ _ (by decide) (by decide)⟩

theorem excessBits_spec (m k : Nat) :
    excessBits m k ≤ k ∧ (1 ≤ excessBits m k → 2 ^ (52 + excessBits m k) ≤ m) ∧
    (m < 2 ^ (53 + k) → m < 2 ^ (53 + excessBits m k)) := by
  induction k with
  | zero => simp [excessBits]
  | succ k ih =>
    unfold excessBits
    split_ifs with h
    · exact ⟨by omega, ih.2.1, fun _ => ih.2.2 h⟩
    · refine ⟨le_refl _, fun _ => ?_, fun h2 => h2⟩
      have : 52 + (k + 1) = 53 + k := by omega
      rw [this]
      omega

theorem roundShift_bounds (m e : Nat) :
    m / 2 ^ e ≤ roundShift m e ∧ roundShift m e ≤ m / 2 ^ e + 1 ∧
    (m % 2 ^ e = 0 → roundShift m e = m / 2 ^ e) := by
  have hpos : 0 < 2 ^ e := Nat.pow_pos (by norm_num)
  unfold roundShift
  refine ⟨?_, ?_, ?_⟩
  · split_ifs <;> omega
  · split_ifs <;> omega
  · intro h0
    rw [h0]
    simp [hpos]

/-- Rounding to float64 does not cross a power of two. -/
theorem float64OfNat_bounds (m k : Nat) (hm : m < 2 ^ 64) :
    (2 ^ k ≤ m → 2 ^ k ≤ float64OfNat m) ∧ (m ≤ 2 ^ k → float64OfNat m ≤ 2 ^ k) := by
  obtain ⟨_, he1, he2⟩ := excessBits_spec m 11
  obtain ⟨hq1, hq2, hq3⟩ := roundShift_bounds m (excessBits m 11)
  have hlt := he2 (by simpa using hm)
  unfold float64OfNat
  generalize excessBits m 11 = e at *
  have hpos : 0 < 2 ^ e := Nat.pow_pos (by norm_num)
  constructor
  · intro hk
    by_cases hke : e ≤ k
    · have h2 : 2 ^ k = 2 ^ (k - e) * 2 ^ e := by rw [← pow_add]; congr 1; omega
      rw [h2]
      apply Nat.mul_le_mul_right
      refine le_trans ?_ hq1
      rw [Nat.le_div_iff_mul_le hpos, ← h2]
      exact hk
    · have he : 1 ≤ e := by omega
      have h52 : 2 ^ 52 ≤ m / 2 ^ e := by
        rw [Nat.le_div_iff_mul_le hpos, ← pow_add]
        exact he1 he
      calc 2 ^ k ≤ 2 ^ e := Nat.pow_le_pow_right (by norm_num) (by omega)
        _ = 1 * 2 ^ e := by ring
        _ ≤ roundShift m e * 2 ^ e := Nat.mul_le_mul_right _ (by omega)
  · intro hk
    by_cases he : e = 0
    · subst he
      have := hq3 (by simp [Nat.mod_one])
      rw [this]
      simpa using hk
    · have h1 := he1 (by omega)
      have hek : 52 + e ≤ k :=
        (Nat.pow_le_pow_iff_right (by norm_num : 1 < 2)).mp (le_trans h1 hk)
      have h2 : 2 ^ k = 2 ^ (k - e) * 2 ^ e := by rw [← pow_add]; congr 1; omega
      have hq : m / 2 ^ e ≤ 2 ^ (k - e) := by
        have := Nat.div_le_div_right (c := 2 ^ e) hk
        rwa [h2, Nat.mul_div_cancel _ hpos] at this
      rw [h2]
      apply Nat.mul_le_mul_right
      rcases Nat.lt_or_ge (m / 2 ^ e) (2 ^ (k - e)) with hlt2 | hge
      · omega
      · have hqe : m / 2 ^ e = 2 ^ (k - e) := le_antisymm hq hge
        have hmod : m % 2 ^ e = 0 := by
          have hdm := Nat.div_add_mod m (2 ^ e)
          rw [hqe, mul_comm, ← h2] at hdm
          omega
        rw [hq3 hmod, hqe]

/-- `float64(x)` of a positive `int64` does not cross a power of two. -/
theorem float64OfInt64_bounds (x : Int) (k : Nat) (h0 : 0 < x) (h1 : x < 2 ^ 63) :
    ((2 : Int) ^ k ≤ x → (2 : ℚ) ^ k ≤ float64OfInt64 x) ∧
    (x ≤ (2 : Int) ^ k → float64OfInt64 x ≤ (2 : ℚ) ^ k) := by
  have hx : ((x.natAbs : Nat) : Int) = x := Int.natAbs_of_nonneg (le_of_lt h0)
  have hm : x.natAbs < 2 ^ 64 := by
    have : ((x.natAbs : Nat) : Int) < ((2 ^ 64 : Nat) : Int) := by
      rw [hx]; push_cast; omega
    exact_mod_cast this
  obtain ⟨hlo, hhi⟩ := float64OfNat_bounds x.natAbs k hm
  have hval : float64OfInt64 x = ((float64OfNat x.natAbs : Nat) : ℚ) := by
    unfold float64OfInt64
    rw [Int.sign_eq_one_of_pos h0]
    push_cast
    ring
  rw [hval]
  constructor
  · intro h
    have : 2 ^ k ≤ x.natAbs := by
      have : ((2 ^ k : Nat) : Int) ≤ ((x.natAbs : Nat) : Int) := by
        rw [hx]; push_cast; exact h
      exact_mod_cast this
    exact_mod_cast hlo this
  · intro h
    have : x.natAbs ≤ 2 ^ k := by
      have : ((x.natAbs : Nat) : Int) ≤ ((2 ^ k : Nat) : Int) := by
        rw [hx]; push_cast; exact h
      exact_mod_cast this
    exact_mod_cast hhi this

/-- Rounding to the nearest integer does not cross an integer. -/
theorem roundHalfEven_bounds (q : ℚ) (hq : 0 ≤ q) (N : Nat) :
    ((N : ℚ) ≤ q → N ≤ roundHalfEven q) ∧ (q ≤ (N : ℚ) → roundHalfEven q ≤ N) := by
  have hf0 : 0 ≤ ⌊q⌋ := Int.floor_nonneg.mpr hq
  have hfc : ((⌊q⌋.toNat : Nat) : Int) = ⌊q⌋ := Int.toNat_of_nonneg hf0
  have hfq : ((⌊q⌋.toNat : Nat) : ℚ) ≤ q := by
    have h1 : ((⌊q⌋ : Int) : ℚ) ≤ q := Int.floor_le q
    rw [← hfc] at h1
    exact_mod_cast h1
  simp only [roundHalfEven]
  constructor
  · intro h
    have hN : N ≤ ⌊q⌋.toNat := by
      rw [Int.le_toNat hf0, Int.le_floor]
      exact_mod_cast h
    split_ifs <;> omega
  · intro h
    have hle : ⌊q⌋.toNat ≤ N := by
      have : ((⌊q⌋.toNat : Nat) : ℚ) ≤ (N : ℚ) := le_trans hfq h
      exact_mod_cast this
    rcases Nat.lt_or_ge (⌊q⌋.toNat) N with hlt | hge
    · split_ifs <;> omega
    · have heq : ⌊q⌋.toNat = N := le_antisymm hle hge
      have hqN : q = (N : ℚ) := le_antisymm h (by rw [← heq]; exact hfq)
      have hsub : q - ((⌊q⌋.toNat : Nat) : ℚ) < 1 / 2 := by
        rw [heq, hqN]; norm_num
      rw [if_pos hsub]
      exact hle

/-- The loop of `formatBytes` ends within `fuel` rounds when `n < 1024^fuel`, with
`div` multiplied by `1024^k` and `exp` raised by `k`, where `1024^k <= n < 1024^(k+1)`;
no product wraps as long as `div * n` fits an `int64`. -/
theorem formatBytesLoop_spec (fuel : Nat) : ∀ (n div : Int) (exp : Nat),
    1 ≤ n → n < 1024 ^ fuel → 0 < div → div * n < 2 ^ 63 →
    ∃ k, formatBytesLoop fuel n div exp = some (div * 1024 ^ k, exp + k) ∧
      (1024 : Int) ^ k ≤ n ∧ n < 1024 ^ (k + 1) := by
  induction fuel with
  | zero =>
    intro n div exp h1 h2 _ _
    simp at h2
    omega
  | succ fuel ih =>
    intro n div exp h1 h2 hd hprod
    unfold formatBytesLoop
    by_cases hn : (1024 : Int) ≤ n
    · rw [if_pos hn]
      have htd : Int.tdiv n 1024 = n / 1024 := Int.tdiv_eq_ediv (by omega) (by norm_num)
      have hdiv : div * 1024 ≤ div * n := mul_le_mul_of_nonneg_left hn (le_of_lt hd)
      have hwrap : int64Wrap (div * 1024) = div * 1024 := by
        unfold int64Wrap
        norm_num at hprod ⊢
        omega
      have hn1 : 1 ≤ n / 1024 := by omega
      have hn2 : n / 1024 < 1024 ^ fuel := by
        rw [pow_succ] at h2
        generalize (1024 : Int) ^ fuel = P at h2 ⊢
        omega
      have hprod2 : div * 1024 * (n / 1024) < 2 ^ 63 := by
        have h3 : 1024 * (n / 1024) ≤ n := by omega
        have h4 : div * (1024 * (n / 1024)) ≤ div * n :=
          mul_le_mul_of_nonneg_left h3 (le_of_lt hd)
        rw [mul_assoc]
        exact lt_of_le_of_lt h4 hprod
      rw [htd, hwrap]
      obtain ⟨k, hk1, hk2, hk3⟩ := ih (n / 1024) (div * 1024) (exp + 1) hn1 hn2
        (by omega) hprod2
      refine ⟨k + 1, ?_, ?_, ?_⟩
      · rw [hk1]
        congr 2
        · rw [pow_succ]; ring
        · omega
      · rw [pow_succ]
        generalize (1024 : Int) ^ k = P at hk2 ⊢
        omega
      · rw [pow_succ]
        generalize (1024 : Int) ^ (k + 1) = P at hk3 ⊢
        omega
    · rw [if_neg hn]
      refine ⟨0, by simp, by simpa using h1, by simpa using lt_of_not_le hn⟩

/-- C25 (as amended): `formatBytes` is total and its unit index is always in range.  For every
`bytes` below `2^63` the loop ends within six rounds; for `bytes < 1024` (negative values
included) the result is `"< 1 KB"`; for `bytes >= 1024` the index satisfies `exp <= 5`, the
divisor is `div = 1024^(exp+1)` with `div <= bytes < 1024 * div`, so the exact quotient
`bytes / div` is in `[1, 1024)`, and the printed magnitude, which is the float64 quotient
rounded to one decimal, is between `1.0` and `1024.0` inclusive. -/
theorem C25_formatBytes_total (fuel : Nat) (bytes : Int) (hfuel : 6 ≤ fuel)
    (hhi : bytes < 2 ^ 63) :
    (bytes < 1024 → formatBytes fuel bytes = FormatResult.text "< 1 KB") ∧
    (1024 ≤ bytes → ∃ (exp : Nat) (u : Char),
      exp ≤ 5 ∧
      formatBytesDivExp fuel bytes = some ((1024 : Int) ^ (exp + 1), exp) ∧
      units.get? exp = some u ∧
      (1024 : Int) ^ (exp + 1) ≤ bytes ∧ bytes < 1024 * (1024 : Int) ^ (exp + 1) ∧
      formatBytes fuel bytes = FormatResult.text
        (sprintfF1 (float64OfInt64 bytes / float64OfInt64 ((1024 : Int) ^ (exp + 1))) ++ " " ++
          String.singleton u ++ "B") ∧
      1 ≤ (bytes : ℚ) / (1024 : ℚ) ^ (exp + 1) ∧
      (bytes : ℚ) / (1024 : ℚ) ^ (exp + 1) < 1024 ∧
      10 ≤ printedTenths
        (float64OfInt64 bytes / float64OfInt64 ((1024 : Int) ^ (exp + 1))) ∧
      printedTenths
        (float64OfInt64 bytes / float64OfInt64 ((1024 : Int) ^ (exp + 1))) ≤ 10240) := by
  constructor
  · intro h
    unfold formatBytes
    rw [if_pos h]
  · intro h
    have htd : Int.tdiv bytes 1024 = bytes / 1024 :=
      Int.tdiv_eq_ediv (by omega) (by norm_num)
    have hfuel6 : (1024 : Int) ^ 6 ≤ 1024 ^ fuel := pow_le_pow_right₀ (by norm_num) hfuel
    have hn53 : bytes / 1024 < 2 ^ 53 := by
      norm_num at hhi ⊢
      omega
    obtain ⟨k, hk1, hk2, hk3⟩ := formatBytesLoop_spec fuel (bytes / 1024) 1024 0
      (by omega) (by norm_num at hfuel6 hn53 ⊢; omega) (by norm_num)
      (by norm_num at hhi ⊢; omega)
    have hk5 : k ≤ 5 := by
      by_contra hc
      have h6 : (1024 : Int) ^ 6 ≤ 1024 ^ k := pow_le_pow_right₀ (by norm_num) (by omega)
      norm_num at h6 hn53
      omega
    have hDE : formatBytesDivExp fuel bytes = some ((1024 : Int) ^ (k + 1), k) := by
      unfold formatBytesDivExp
      rw [htd, hk1]
      congr 2
      · rw [pow_succ]; ring
      · omega
    have hlen : k < units.length := by
      simp only [units, List.length_cons, List.length_nil]
      omega
    have hu : units.get? k = some (units.get ⟨k, hlen⟩) := List.get?_eq_get hlen
    have hD1 : (1024 : Int) ^ (k + 1) ≤ bytes := by
      rw [pow_succ]
      generalize (1024 : Int) ^ k = P at hk2 ⊢
      omega
    have hD2 : bytes < 1024 * (1024 : Int) ^ (k + 1) := by
      generalize (1024 : Int) ^ (k + 1) = P at hk3 ⊢
      omega
    have hDpos : (0 : Int) < (1024 : Int) ^ (k + 1) := pow_pos (by norm_num) _
    have hpowZ : (1024 : Int) ^ (k + 1) = 2 ^ (10 * (k + 1)) := by
      rw [pow_mul]; norm_num
    have hpowZ2 : 1024 * (1024 : Int) ^ (k + 1) = 2 ^ (10 * (k + 2)) := by
      rw [pow_mul, pow_succ (2 ^ 10 : Int) (k + 1)]; norm_num; ring
    have hpowQ : (2 : ℚ) ^ (10 * (k + 2)) = 1024 * (2 : ℚ) ^ (10 * (k + 1)) := by
      rw [pow_mul, pow_mul, pow_succ (2 ^ 10 : ℚ) (k + 1)]; norm_num; ring
    have hfD : float64OfInt64 ((1024 : Int) ^ (k + 1)) = (2 : ℚ) ^ (10 * (k + 1)) := by
      obtain ⟨ha, hb⟩ := float64OfInt64_bounds ((1024 : Int) ^ (k + 1)) (10 * (k + 1)) hDpos
        (lt_of_le_of_lt hD1 hhi)
      exact le_antisymm (hb (le_of_eq hpowZ)) (ha (le_of_eq hpowZ.symm))
    obtain ⟨hba, hbb⟩ := float64OfInt64_bounds bytes (10 * (k + 1)) (by omega) hhi
    obtain ⟨_, hbc⟩ := float64OfInt64_bounds bytes (10 * (k + 2)) (by omega) hhi
    have hb1 : (2 : ℚ) ^ (10 * (k + 1)) ≤ float64OfInt64 bytes := hba (by rw [← hpowZ]; exact hD1)
    have hb2 : float64OfInt64 bytes ≤ 1024 * (2 : ℚ) ^ (10 * (k + 1)) := by
      rw [← hpowQ]
      exact hbc (by rw [← hpowZ2]; exact le_of_lt hD2)
    have hQpos : (0 : ℚ) < (2 : ℚ) ^ (10 * (k + 1)) := pow_pos (by norm_num) _
    have hv1 : 1 ≤ float64OfInt64 bytes / float64OfInt64 ((1024 : Int) ^ (k + 1)) := by
      rw [hfD, le_div_iff₀ hQpos]
      simpa using hb1
    have hv2 : float64OfInt64 bytes / float64OfInt64 ((1024 : Int) ^ (k + 1)) ≤ 1024 := by
      rw [hfD, div_le_iff₀ hQpos]
      exact hb2
    have hv0 : 0 ≤ float64OfInt64 bytes / float64OfInt64 ((1024 : Int) ^ (k + 1)) :=
      le_trans (by norm_num) hv1
    have hDQpos : (0 : ℚ) < (1024 : ℚ) ^ (k + 1) := pow_pos (by norm_num) _
    refine ⟨k, units.get ⟨k, hlen⟩, hk5, hDE, hu, hD1, hD2, ?_, ?_, ?_, ?_, ?_⟩
    · unfold formatBytes
      rw [if_neg (by omega), hDE]
      simp only [hu]
    · rw [le_div_iff₀ hDQpos, one_mul]
      exact_mod_cast hD1
    · rw [div_lt_iff₀ hDQpos]
      exact_mod_cast hD2
    · unfold printedTenths
      rw [abs_of_nonneg hv0]
      exact (roundHalfEven_bounds _ (by positivity) 10).1 (by push_cast; linarith)
    · unfold printedTenths
      rw [abs_of_nonneg hv0]
      exact (roundHalfEven_bounds _ (by positivity) 10240).2 (by push_cast; linarith)

/-- C25 (witness): 1536 bytes, six rounds allowed. -/
theorem C25_formatBytes_total_witness :
    (6 ≤ 6 ∧ (1536 : Int) < 2 ^ 63 ∧ (1024 : Int) ≤ 1536) ∧
    formatBytes 6 1536 = FormatResult.text "1.5 KB" ∧
    ∃ (exp : Nat) (u : Char), exp ≤ 5 ∧
      formatBytesDivExp 6 1536 = some ((1024 : Int) ^ (exp + 1), exp) ∧
      units.get? exp = some u := by
  obtain ⟨exp, u, h1, h2, h3, -⟩ :=
    (C25_formatBytes_total 6 1536 (by decide) (by decide)).2 (by decide)
  exact ⟨⟨by decide, by decide, by decide⟩, by decide!, exp, u, h1, h2, h3⟩

/-- C25 (counterexample to the printed range): for 1048575 bytes the divisor is 1024 and the
quotient 1023.999 is below 1024, yet the text printed is `1024.0 KB`; for `2^60 - 1` bytes
the divisor is `2^50` and already the float64 quotient handed to `Sprintf` is 1024. -/
theorem C25_counterexample :
    formatBytesDivExp 6 1048575 = some (1024, 0) ∧
    (1048575 : ℚ) / 1024 < 1024 ∧
    printedTenths (float64OfInt64 1048575 / float64OfInt64 1024) = 10240 ∧
    formatBytes 6 1048575 = FormatResult.text "1024.0 KB" ∧
    formatBytesDivExp 6 (2 ^ 60 - 1) = some (2 ^ 50, 4) ∧
    float64OfInt64 (2 ^ 60 - 1) / float64OfInt64 (2 ^ 50) = 1024 ∧
    formatBytes 6 (2 ^ 60 - 1) = FormatResult.text "1024.0 PB" := by
  refine ⟨by decide, by norm_num, by decide!, by decide!, by decide, by decide!, by decide!⟩

/-! ### `SavePriceHistory` and `Sscanf` -/

theorem digitChar_toNat (k : Nat) (h : k < 10) : (Nat.digitChar k).toNat = 48 + k := by
  interval_cases k <;> rfl

theorem decimalValue_append_singleton (ds : List Char) (c : Char) :
    decimalValue (ds ++ [c]) = 10 * decimalValue ds + (c.toNat - 48) := by
  simp [decimalValue, List.foldl_append]

/-- The digits that `Nat.toDigits 10` puts in front of the accumulator are a non-empty run
of `0`..`9` whose value is the number. -/
theorem toDigitsCore_spec (fuel : Nat) : ∀ n : Nat, n < fuel →
    ∃ pre : List Char, (∀ ds, Nat.toDigitsCore 10 fuel n ds = pre ++ ds) ∧ pre ≠ [] ∧
      (∀ c ∈ pre, 48 ≤ c.toNat ∧ c.toNat ≤ 57) ∧ decimalValue pre = n := by
  induction fuel with
  | zero => intro n h; omega
  | succ fuel ih =>
    intro n hn
    have hd := digitChar_toNat (n % 10) (Nat.mod_lt _ (by norm_num))
    by_cases h0 : n / 10 = 0
    · refine ⟨[Nat.digitChar (n % 10)], ?_, by simp, ?_, ?_⟩
      · intro ds
        simp [Nat.toDigitsCore, h0]
      · intro c hc
        rw [List.mem_singleton] at hc
        rw [hc, hd]
        omega
      · simp only [decimalValue, List.foldl_cons, List.foldl_nil, hd]
        omega
    · obtain ⟨pre, h1, _, h3, h4⟩ := ih (n / 10) (by omega)
      refine ⟨pre ++ [Nat.digitChar (n % 10)], ?_, by simp, ?_, ?_⟩
      · intro ds
        simp [Nat.toDigitsCore, h0, h1]
      · intro c hc
        rw [List.mem_append, List.mem_singleton] at hc
        rcases hc with hc | hc
        · exact h3 c hc
        · rw [hc, hd]
          omega
      · rw [decimalValue_append_singleton, h4, hd]
        omega

/-- The decimal text of a natural number is a non-empty run of `0`..`9` with that value. -/
theorem toString_nat_spec (n : Nat) :
    (toString n).toList ≠ [] ∧ (∀ c ∈ (toString n).toList, 48 ≤ c.toNat ∧ c.toNat ≤ 57) ∧
    decimalValue (toString n).toList = n := by
  obtain ⟨pre, h1, h2, h3, h4⟩ := toDigitsCore_spec (n + 1) n (by omega)
  have h : (toString n).toList = pre := by
    show (Nat.repr n).data = pre
    simp [Nat.repr, Nat.toDigits, h1, List.asString]
  rw [h]
  exact ⟨h2, h3, h4⟩

theorem mem_decimalDigits (c : Char) :
    decimalDigits.contains c = true ↔ (48 ≤ c.toNat ∧ c.toNat ≤ 57) := by
  constructor
  · intro h
    have h2 : c ∈ decimalDigits := by simpa using h
    simp only [decimalDigits, String.toList, List.mem_cons, List.mem_singleton] at h2
    rcases h2 with h | h | h | h | h | h | h | h | h | h | h
    all_goals first
      | (subst h; decide)
      | (simp at h)
  · rintro ⟨h1, h2⟩
    have hc : c = Char.ofNat c.toNat := (Char.ofNat_toNat c).symm
    rw [hc]
    generalize c.toNat = k at h1 h2
    interval_cases k <;> decide

theorem mem_sign (c : Char) : sign.contains c = true ↔ c = '+' ∨ c = '-' := by
  have h2 : sign.contains c = true ↔ c ∈ sign := by simp
  rw [h2]
  simp [sign, String.toList]

theorem isSpace_digit (c : Char) (h : 48 ≤ c.toNat ∧ c.toNat ≤ 57) : isSpace c = false := by
  simp only [isSpace, space, List.any_cons, List.any_nil, Bool.or_false, Bool.or_eq_false_iff,
    decide_eq_false_iff_not]
  omega

/-- A rune that is not a blank ends `SkipSpace`. -/
theorem SkipSpace_cons_of_not_isSpace (r : Char) (rest : List Char) (h : isSpace r = false) :
    SkipSpace (r :: rest) = some (r :: rest) := by
  have h13 : r.toNat ≠ 13 ∧ r.toNat ≠ 10 := by
    simp only [isSpace, space, List.any_cons, List.any_nil, Bool.or_false,
      Bool.or_eq_false_iff, decide_eq_false_iff_not] at h
    omega
  unfold SkipSpace
  rw [if_neg (by intro hh; exact h13.1 hh.1), if_neg h13.2, h]
  simp

theorem takeWhile_append_stop (p : Char → Bool) (ds rest : List Char)
    (hall : ∀ c ∈ ds, p c = true) (hstop : ∀ c, rest.head? = some c → p c = false) :
    (ds ++ rest).takeWhile p = ds := by
  induction ds with
  | nil =>
    cases rest with
    | nil => rfl
    | cons c cs =>
      have := hstop c rfl
      simp [List.takeWhile, this]
  | cons d ds ih =>
    have hd := hall d (List.mem_cons_self _ _)
    have ih2 := ih (fun c hc => hall c (List.mem_cons_of_mem _ hc))
    simp only [List.cons_append, List.takeWhile, hd]
    exact congrArg (List.cons d) ih2

/-- The number token of an input that starts with a run of digits `ds` and goes on with
something that is not a digit is `ds`. -/
theorem scanNumber_digits (ds rest : List Char) (hne : ds ≠ [])
    (hall : ∀ c ∈ ds, 48 ≤ c.toNat ∧ c.toNat ≤ 57)
    (hstop : ∀ c, rest.head? = some c → decimalDigits.contains c = false) :
    scanNumber decimalDigits (ds ++ rest) = some ds := by
  cases ds with
  | nil => exact absurd rfl hne
  | cons d ds =>
    have hd : decimalDigits.contains d = true :=
      (mem_decimalDigits d).mpr (hall d (List.mem_cons_self _ _))
    simp only [List.cons_append, scanNumber, hd, if_true]
    rw [takeWhile_append_stop _ ds rest
      (fun c hc => (mem_decimalDigits c).mpr (hall c (List.mem_cons_of_mem _ hc)))
      hstop]

theorem ParseUint_digits (ds : List Char) (hne : ds ≠ [])
    (hall : ∀ c ∈ ds, 48 ≤ c.toNat ∧ c.toNat ≤ 57) :
    ParseUint ds = some (min (decimalValue ds) (2 ^ 64 - 1)) := by
  unfold ParseUint
  rw [if_neg hne, if_pos]
  rw [List.all_eq_true]
  intro c hc
  exact decide_eq_true (hall c hc)

theorem not_sign_of_digit (c : Char) (h : 48 ≤ c.toNat ∧ c.toNat ≤ 57) :
    ¬ (c = '+' ∨ c = '-') := by
  rintro (hc | hc) <;> · subst hc; revert h; decide

/-- `ParseInt` on an unsigned run of digits: its value when that is below `2^63`. -/
theorem ParseInt_digits (ds : List Char) (hne : ds ≠ [])
    (hall : ∀ c ∈ ds, 48 ≤ c.toNat ∧ c.toNat ≤ 57) :
    ParseInt ds = if decimalValue ds < 2 ^ 63 then some (decimalValue ds : Int) else none := by
  cases ds with
  | nil => exact absurd rfl hne
  | cons d ds =>
    have hd := not_sign_of_digit d (hall d (List.mem_cons_self _ _))
    have hd2 : d ≠ '-' := fun h => hd (Or.inr h)
    have hU := ParseUint_digits (d :: ds) hne hall
    unfold ParseInt
    dsimp only
    rw [if_neg hd, hU]
    dsimp only
    by_cases hv : decimalValue (d :: ds) < 2 ^ 63
    · have hmin : min (decimalValue (d :: ds)) (2 ^ 64 - 1) = decimalValue (d :: ds) :=
        min_eq_left (by omega)
      rw [hmin, if_pos hv, if_neg (fun h => absurd h.2 (by omega)),
        if_neg (fun h => hd2 h.1), if_neg hd2]
    · have hmin : 2 ^ 63 ≤ min (decimalValue (d :: ds)) (2 ^ 64 - 1) :=
        le_min (by omega) (by norm_num)
      rw [if_neg hv, if_pos ⟨hd2, hmin⟩]

/-- `ParseInt` on a run of digits after a minus sign: the negated value when that is at
least `-2^63`. -/
theorem ParseInt_neg_digits (ds : List Char) (hne : ds ≠ [])
    (hall : ∀ c ∈ ds, 48 ≤ c.toNat ∧ c.toNat ≤ 57) :
    ParseInt ('-' :: ds) =
      if decimalValue ds ≤ 2 ^ 63 then some (-(decimalValue ds : Int)) else none := by
  have hU := ParseUint_digits ds hne hall
  unfold ParseInt
  dsimp only
  rw [if_pos (Or.inr rfl), hU]
  dsimp only
  rw [if_neg (fun h => h.1 rfl)]
  by_cases hv : decimalValue ds ≤ 2 ^ 63
  · have hmin : min (decimalValue ds) (2 ^ 64 - 1) = decimalValue ds :=
      min_eq_left (by omega)
    rw [hmin, if_pos hv, if_neg (fun h => absurd h.2 (by omega)), if_pos rfl]
  · have hmin : 2 ^ 63 < min (decimalValue ds) (2 ^ 64 - 1) :=
      lt_min (by omega) (by norm_num)
    rw [if_neg hv, if_pos ⟨rfl, hmin⟩]

/-- A key that starts with a run of digits `ds`, followed by the end of the key or by a
character that is not a digit, scans to the value of `ds` when that
fits an `int64`; if it does not fit the operand keeps its value. -/
theorem Sscanf_digits (key : String) (v : Int) (ds rest : List Char)
    (hkey : key.toList = ds ++ rest) (hne : ds ≠ [])
    (hall : ∀ c ∈ ds, 48 ≤ c.toNat ∧ c.toNat ≤ 57)
    (hstop : ∀ c, rest.head? = some c → decimalDigits.contains c = false) :
    Sscanf key v = if decimalValue ds < 2 ^ 63 then (decimalValue ds : Int) else v := by
  have hnum := scanNumber_digits ds rest hne hall hstop
  have hP := ParseInt_digits ds hne hall
  cases ds with
  | nil => exact absurd rfl hne
  | cons d ds =>
    have hd := hall d (List.mem_cons_self _ _)
    have hsp := SkipSpace_cons_of_not_isSpace d (ds ++ rest) (isSpace_digit d hd)
    have hsg : sign.contains d = false := by
      rw [Bool.eq_false_iff]
      intro h
      exact not_sign_of_digit d hd ((mem_sign d).mp h)
    have hscan : scanInt (d :: (ds ++ rest)) = ParseInt (d :: ds) := by
      unfold scanInt
      rw [hsp]
      dsimp only
      simp only [hsg, Bool.false_eq_true, if_false]
      rw [← List.cons_append, hnum]
      rfl
    unfold Sscanf
    rw [hkey, List.cons_append, hsp]
    dsimp only
    rw [hscan, hP]
    split_ifs <;> rfl

/-- A key that starts with a minus sign and a run of digits `ds`, followed by the end of the
key or by a character that is not a digit, scans to minus the value of
`ds` when that fits an `int64`. -/
theorem Sscanf_neg_digits (key : String) (v : Int) (ds rest : List Char)
    (hkey : key.toList = '-' :: (ds ++ rest)) (hne : ds ≠ [])
    (hall : ∀ c ∈ ds, 48 ≤ c.toNat ∧ c.toNat ≤ 57)
    (hstop : ∀ c, rest.head? = some c → decimalDigits.contains c = false) :
    Sscanf key v = if decimalValue ds ≤ 2 ^ 63 then -(decimalValue ds : Int) else v := by
  have hnum := scanNumber_digits ds rest hne hall hstop
  have hP := ParseInt_neg_digits ds hne hall
  have hsp := SkipSpace_cons_of_not_isSpace '-' (ds ++ rest) (by decide)
  have hsg : sign.contains '-' = true := by decide
  have hscan : scanInt ('-' :: (ds ++ rest)) = ParseInt ('-' :: ds) := by
    unfold scanInt
    rw [hsp]
    dsimp only
    simp only [hsg, if_true]
    rw [hnum]
    rfl
  unfold Sscanf
  rw [hkey, hsp]
  dsimp only
  rw [hscan, hP]
  split_ifs <;> rfl

/-- An empty key, and a key whose first character is not a blank, a sign or a digit, leave
the operand as it is. -/
theorem Sscanf_no_number (key : String) (v : Int)
    (h : key.toList = [] ∨ ∃ r rest, key.toList = r :: rest ∧ isSpace r = false ∧
      sign.contains r = false ∧ decimalDigits.contains r = false) :
    Sscanf key v = v := by
  unfold Sscanf
  rcases h with h | ⟨r, rest, h, h1, h2, h3⟩
  · rw [h]
    rfl
  · have hsp := SkipSpace_cons_of_not_isSpace r rest h1
    rw [h, hsp]
    dsimp only
    unfold scanInt
    rw [hsp]
    dsimp only
    simp only [h2, Bool.false_eq_true, if_false, scanNumber, h3]
    rfl

/-- A leading blank other than a newline (and other than a carriage return directly before
a newline) is skipped. -/
theorem Sscanf_blank (key : String) (v : Int) (r : Char) (rest : List Char)
    (hkey : key.toList = r :: rest) (hsp : isSpace r = true) (hnl : r.toNat ≠ 10)
    (hcr : ¬ (r.toNat = 13 ∧ rest.head? = some (Char.ofNat 10))) :
    Sscanf key v = Sscanf (String.mk rest) v := by
  have h : SkipSpace (r :: rest) = SkipSpace rest := by
    conv_lhs => unfold SkipSpace
    rw [if_neg hcr, if_neg hnl, if_pos hsp]
  unfold Sscanf
  rw [hkey, h]
  rfl

/-- The decimal text of an `int64` scans back to the number. -/
theorem Sscanf_toString (n v : Int) (hlo : -2 ^ 63 ≤ n) (hhi : n < 2 ^ 63) :
    Sscanf (toString n) v = n := by
  cases n with
  | ofNat m =>
    obtain ⟨h1, h2, h3⟩ := toString_nat_spec m
    have hk : (toString (Int.ofNat m)).toList = (toString m).toList ++ [] := by
      rw [List.append_nil]
      rfl
    have hm : m < 2 ^ 63 := by
      have : (m : Int) < 2 ^ 63 := hhi
      exact_mod_cast this
    rw [Sscanf_digits _ v _ [] hk h1 h2 (by simp), h3, if_pos hm]
    rfl
  | negSucc m =>
    obtain ⟨h1, h2, h3⟩ := toString_nat_spec (m + 1)
    have hk : (toString (Int.negSucc m)).toList = '-' :: ((toString (m + 1)).toList ++ []) := by
      rw [List.append_nil]
      rfl
    have hm : m + 1 ≤ 2 ^ 63 := by
      have : -2 ^ 63 ≤ -((m : Int) + 1) := by
        rw [Int.negSucc_eq] at hlo
        exact hlo
      have h4 : ((m + 1 : Nat) : Int) ≤ ((2 ^ 63 : Nat) : Int) := by
        push_cast
        omega
      exact_mod_cast h4
    rw [Sscanf_neg_digits _ v _ [] hk h1 h2 (by simp), h3, if_pos hm, Int.negSucc_eq]
    push_cast
    ring

theorem SavePriceHistory_ok (now : Int) (prices : List (String × ItemPrice)) (db : Store) :
    SavePriceHistory now false prices db =
      ({ db with price_history := db.price_history ++ prices.map (priceRecord now) },
        false) := by
  unfold SavePriceHistory
  cases prices with
  | nil => simp
  | cons e es => simp

theorem SavePriceHistory_error (now : Int) (createFails : Bool)
    (prices : List (String × ItemPrice)) (db : Store) :
    (SavePriceHistory now createFails prices db).2 =
      (createFails && decide (0 < prices.length)) := by
  unfold SavePriceHistory
  cases prices with
  | nil => simp
  | cons e es => cases createFails <;> simp

/-- C21: ingest append.  When the store accepts the batch, `SavePriceHistory` returns no
error and appends to the raw table exactly one record per entry of the snapshot, in the
order of iteration (nothing for an empty mapping), leaving the other tables alone; another
iteration order writes the same records; every record carries the one timestamp `now`,
copies high, highTime, low, lowTime, highVolume and lowVolume of its entry, and has as
ItemID the `int64` whose decimal text is the entry's key. -/
theorem C21_ingest_append (now : Int) (prices : List (String × ItemPrice)) (db : Store) :
    (SavePriceHistory now false prices db).2 = false ∧
    (SavePriceHistory now false prices db).1.price_history =
      db.price_history ++ prices.map (priceRecord now) ∧
    (SavePriceHistory now false prices db).1.price_history_hourly = db.price_history_hourly ∧
    (SavePriceHistory now false prices db).1.price_history_daily = db.price_history_daily ∧
    (prices.map (priceRecord now)).length = prices.length ∧
    (prices = [] → SavePriceHistory now false prices db = (db, false)) ∧
    (∀ prices2 : List (String × ItemPrice), prices2.Perm prices →
      ((SavePriceHistory now false prices2 db).1.price_history).Perm
        (SavePriceHistory now false prices db).1.price_history) ∧
    (∀ e : String × ItemPrice,
      (priceRecord now e).Timestamp = now ∧
      (priceRecord now e).High = e.2.High ∧
      (priceRecord now e).HighTime = e.2.HighTime ∧
      (priceRecord now e).Low = e.2.Low ∧
      (priceRecord now e).LowTime = e.2.LowTime ∧
      (priceRecord now e).HighVolume = e.2.HighVolume ∧
      (priceRecord now e).LowVolume = e.2.LowVolume ∧
      (∀ n : Int, -2 ^ 63 ≤ n → n < 2 ^ 63 → e.1 = toString n →
        (priceRecord now e).ItemID = n)) := by
  refine ⟨?_, ?_, ?_, ?_, ?_, ?_, ?_, ?_⟩
  · rw [SavePriceHistory_ok]
  · rw [SavePriceHistory_ok]
  · rw [SavePriceHistory_ok]
  · rw [SavePriceHistory_ok]
  · rw [List.length_map]
  · intro h
    subst h
    rfl
  · intro prices2 hperm
    rw [SavePriceHistory_ok, SavePriceHistory_ok]
    exact List.Perm.append_left _ (List.Perm.map _ hperm)
  · intro e
    refine ⟨rfl, rfl, rfl, rfl, rfl, rfl, rfl, ?_⟩
    intro n hlo hhi hkey
    show Sscanf e.1 0 = n
    rw [hkey]
    exact Sscanf_toString n 0 hlo hhi

/-- C21 (witness): a snapshot of two entries written into an empty store. -/
theorem C21_ingest_append_witness :
    (SavePriceHistory 1000 false
        [("4151", ⟨4151, "Abyssal whip", 1500, 990, 1400, 980, 5, 7⟩),
         ("2", ⟨2, "Cannonball", 200, 995, 190, 985, 50, 70⟩)] ⟨[], [], []⟩).1.price_history =
      [⟨4151, 1500, 990, 1400, 980, 5, 7, 1000⟩, ⟨2, 200, 995, 190, 985, 50, 70, 1000⟩] ∧
    (priceRecord 1000 ("4151", ⟨4151, "Abyssal whip", 1500, 990, 1400, 980, 5, 7⟩)).ItemID =
      4151 := by
  have h := C21_ingest_append 1000
    [("4151", ⟨4151, "Abyssal whip", 1500, 990, 1400, 980, 5, 7⟩),
     ("2", ⟨2, "Cannonball", 200, 995, 190, 985, 50, 70⟩)] ⟨[], [], []⟩
  refine ⟨?_, ?_⟩
  · rw [h.2.1]
    decide
  · exact (h.2.2.2.2.2.2.2
      ("4151", ⟨4151, "Abyssal whip", 1500, 990, 1400, 980, 5, 7⟩)).2.2.2.2.2.2.2
      4151 (by decide) (by decide) (by decide)

/-- C24 (as amended): `SavePriceHistory` never rejects an item key.  Whether an error is
returned depends only on the store and on the number of entries, and when the store accepts
the batch one record per entry is written whatever the keys.  The ItemID of a record is what
`Sscanf` leaves in a zeroed operand: 0 for an empty key and for a key whose first character
is not a blank, a sign or a digit; the value of the leading run of digits, which ends at
the end of the key or at the first character that is not a digit, when that value fits an
`int64`, and 0 when it does not fit; the negated value when a minus sign stands before the
run; and a leading blank other than a newline is skipped before any of this. -/
theorem C24_keys_never_rejected (now : Int) (createFails : Bool)
    (prices prices2 : List (String × ItemPrice)) (db : Store) :
    (prices2.length = prices.length →
      (SavePriceHistory now createFails prices2 db).2 =
        (SavePriceHistory now createFails prices db).2) ∧
    (SavePriceHistory now false prices db).2 = false ∧
    (SavePriceHistory now false prices db).1.price_history =
      db.price_history ++ prices.map (priceRecord now) ∧
    (∀ e : String × ItemPrice,
      ((e.1.toList = [] ∨ ∃ r rest, e.1.toList = r :: rest ∧ isSpace r = false ∧
          sign.contains r = false ∧ decimalDigits.contains r = false) →
        (priceRecord now e).ItemID = 0) ∧
      (∀ ds rest : List Char, e.1.toList = ds ++ rest → ds ≠ [] →
        (∀ c ∈ ds, 48 ≤ c.toNat ∧ c.toNat ≤ 57) →
        (∀ c, rest.head? = some c → ¬ (48 ≤ c.toNat ∧ c.toNat ≤ 57)) →
        (decimalValue ds < 2 ^ 63 → (priceRecord now e).ItemID = (decimalValue ds : Int)) ∧
        (2 ^ 63 ≤ decimalValue ds → (priceRecord now e).ItemID = 0)) ∧
      (∀ ds rest : List Char, e.1.toList = '-' :: (ds ++ rest) → ds ≠ [] →
        (∀ c ∈ ds, 48 ≤ c.toNat ∧ c.toNat ≤ 57) →
        (∀ c, rest.head? = some c → ¬ (48 ≤ c.toNat ∧ c.toNat ≤ 57)) →
        decimalValue ds ≤ 2 ^ 63 → (priceRecord now e).ItemID = -(decimalValue ds : Int)) ∧
      (∀ (r : Char) (rest : List Char), e.1.toList = r :: rest → isSpace r = true →
        r.toNat ≠ 10 → ¬ (r.toNat = 13 ∧ rest.head? = some (Char.ofNat 10)) →
        (priceRecord now e).ItemID = (priceRecord now (String.mk rest, e.2)).ItemID)) := by
  have hstop' : ∀ rest : List Char,
      (∀ c, rest.head? = some c → ¬ (48 ≤ c.toNat ∧ c.toNat ≤ 57)) →
      ∀ c, rest.head? = some c → decimalDigits.contains c = false := by
    intro rest h c hc
    rw [Bool.eq_false_iff]
    intro hd
    exact h c hc ((mem_decimalDigits c).mp hd)
  refine ⟨?_, ?_, ?_, ?_⟩
  · intro hlen
    rw [SavePriceHistory_error, SavePriceHistory_error, hlen]
  · rw [SavePriceHistory_ok]
  · rw [SavePriceHistory_ok]
  · intro e
    refine ⟨?_, ?_, ?_, ?_⟩
    · intro h
      exact Sscanf_no_number e.1 0 h
    · intro ds rest hkey hne hall hstop
      have h := Sscanf_digits e.1 0 ds rest hkey hne hall (hstop' rest hstop)
      constructor
      · intro hv
        show Sscanf e.1 0 = _
        rw [h, if_pos hv]
      · intro hv
        show Sscanf e.1 0 = _
        rw [h, if_neg (by omega)]
    · intro ds rest hkey hne hall hstop hv
      have h := Sscanf_neg_digits e.1 0 ds rest hkey hne hall (hstop' rest hstop)
      show Sscanf e.1 0 = _
      rw [h, if_pos hv]
    · intro r rest hkey hsp hnl hcr
      exact Sscanf_blank e.1 0 r rest hkey hsp hnl hcr

/-- C24 (witness): the keys `abc`, the empty key and `12abc` of the claim, and the key
`1_0abc`, whose run of digits ends at the underscore. -/
theorem C24_keys_never_rejected_witness :
    (priceRecord 1000 ("abc", ⟨0, "", 1500, 990, 1400, 980, 5, 7⟩)).ItemID = 0 ∧
    (priceRecord 1000 ("", ⟨0, "", 1500, 990, 1400, 980, 5, 7⟩)).ItemID = 0 ∧
    (priceRecord 1000 ("12abc", ⟨0, "", 1500, 990, 1400, 980, 5, 7⟩)).ItemID = 12 ∧
    (priceRecord 1000 ("1_0abc", ⟨0, "", 1500, 990, 1400, 980, 5, 7⟩)).ItemID = 1 ∧
    (SavePriceHistory 1000 false [("abc", ⟨0, "", 1500, 990, 1400, 980, 5, 7⟩)]
      ⟨[], [], []⟩).1.price_history = [⟨0, 1500, 990, 1400, 980, 5, 7, 1000⟩] := by
  have h := C24_keys_never_rejected 1000 false
    [("abc", ⟨0, "", 1500, 990, 1400, 980, 5, 7⟩)] [] ⟨[], [], []⟩
  refine ⟨?_, ?_, ?_, ?_, ?_⟩
  · exact (h.2.2.2 ("abc", ⟨0, "", 1500, 990, 1400, 980, 5, 7⟩)).1
      (Or.inr ⟨'a', ['b', 'c'], by decide, by decide, by decide, by decide⟩)
  · exact (h.2.2.2 ("", ⟨0, "", 1500, 990, 1400, 980, 5, 7⟩)).1 (Or.inl (by decide))
  · exact ((h.2.2.2 ("12abc", ⟨0, "", 1500, 990, 1400, 980, 5, 7⟩)).2.1
      ['1', '2'] ['a', 'b', 'c'] (by decide) (by decide) (by decide) (by decide)).1
      (by decide)
  · exact ((h.2.2.2 ("1_0abc", ⟨0, "", 1500, 990, 1400, 980, 5, 7⟩)).2.1
      ['1'] ['_', '0', 'a', 'b', 'c'] (by decide) (by decide) (by decide) (by decide)).1
      (by decide)
  · rw [h.2.2.1]
    decide

/-- C24 (counterexample): the key ` 42` starts with a blank, so it is not a decimal integer
and has no numeric prefix, yet its record gets ItemID 42. -/
theorem C24_counterexample :
    (" 42".toList.head? = some ' ') ∧
    Sscanf " 42" 0 = 42 ∧
    (SavePriceHistory 1000 false [(" 42", ⟨0, "", 1500, 990, 1400, 980, 5, 7⟩)]
      ⟨[], [], []⟩).1.price_history = [⟨42, 1500, 990, 1400, 980, 5, 7, 1000⟩] := by
  decide

end OsrsPriceApi
